import Mathlib

/-!
Verification of the level-scoped conditional default-assignment engine of
`oasislmf/utils/defaults.py` (`assign_defaults_to_il_inputs`, lines 231-258).

The source iterates over a profile `level name -> field name -> rule`, resolves
each level name to an integer id through `SUPPORTED_FM_LEVELS`, and for each
rule either unconditionally assigns the rule's `default_value` to the field for
the rows whose `level_id` column equals the resolved id, or - when the rule's
`condition` entry is truthy - keeps the current value on the rows where the
pandas comparison `df.loc[df.level_id == level_id, k] <condition>` holds and
assigns the default on the rows where it does not.

The embedding models the dataframe column-major (a list of named columns of
cells, a cell being `none` for NaN / null), and models the Python/pandas
evaluation of the comparison explicitly: NaN compares `False` under every
operator except `!=` (where it compares `True`), equality across numeric and
text operands is `False`, ordering across them is a `TypeError`.  The profile
(loaded by `get_default_fm_profile_field_values` from a static JSON file) and
the level-id mapping (`SUPPORTED_FM_LEVELS` from `oasislmf/utils/fm.py`) are
data supplied from outside the module under scrutiny, so the engine takes both
as parameters, exactly as the specification's interface
`apply_defaults(table, rule_profile, level_ids)` does.
-/

namespace OasisDefaults

/-- A scalar value held in a dataframe cell or appearing as a rule literal:
numeric or text. -/
inductive Lit where
  | num (q : Int)
  | str (s : String)
deriving DecidableEq, Repr

/-- A dataframe cell; `none` models pandas NaN / null. -/
abbrev Cell := Option Lit

/-- The six comparison operators of the profile condition language. -/
inductive CmpOp where
  | eq | ne | lt | le | gt | ge
deriving DecidableEq, Repr

/-- Strict ordering of two literals as Python evaluates it inside the pandas
comparison: numbers compare numerically, strings lexicographically, and an
ordering comparison across the two kinds is a `TypeError` (`none`). -/
def litLt : Lit → Lit → Option Bool
  | .num a, .num b => some (decide (a < b))
  | .str a, .str b => some (decide (a < b))
  | _, _ => none

/-- Non-strict ordering of two literals, with the same `TypeError` behaviour
as `litLt`. -/
def litLe : Lit → Lit → Option Bool
  | .num a, .num b => some (decide (a ≤ b))
  | .str a, .str b => some (decide (a ≤ b))
  | _, _ => none

/-- Elementwise pandas comparison of one cell against a literal: a NaN cell
compares `False` under every operator except `!=`, where it compares `True`;
equality across numeric/text kinds is `False`; ordering across kinds is a
`TypeError` (`none`). -/
def cmpCell (op : CmpOp) (c : Cell) (l : Lit) : Option Bool :=
  match c with
  | none =>
      match op with
      | .ne => some true
      | _ => some false
  | some v =>
      match op with
      | .eq => some (decide (v = l))
      | .ne => some (decide (v ≠ l))
      | .lt => litLt v l
      | .le => litLe v l
      | .gt => litLt l v
      | .ge => litLe l v

/-- Parse the comparison operator at the head of a condition string. -/
def parseOp : List Char → Option (CmpOp × List Char)
  | '=' :: '=' :: rest => some (.eq, rest)
  | '!' :: '=' :: rest => some (.ne, rest)
  | '>' :: '=' :: rest => some (.ge, rest)
  | '<' :: '=' :: rest => some (.le, rest)
  | '>' :: rest => some (.gt, rest)
  | '<' :: rest => some (.lt, rest)
  | _ => none

/-- Parse a (possibly negated) integer numeral. -/
def parseNum (cs : List Char) : Option (Int × List Char) :=
  match cs with
  | '-' :: rest =>
      let ds := rest.takeWhile Char.isDigit
      if ds.isEmpty then none
      else some (-((ds.foldl (fun a c => a * 10 + (c.toNat - 48)) 0 : Nat) : Int),
        rest.drop ds.length)
  | _ =>
      let ds := cs.takeWhile Char.isDigit
      if ds.isEmpty then none
      else some (((ds.foldl (fun a c => a * 10 + (c.toNat - 48)) 0 : Nat) : Int),
        cs.drop ds.length)

/-- Scan up to a closing quote, returning the quoted text and the remainder. -/
def takeUntil (q : Char) : List Char → Option (List Char × List Char)
  | [] => none
  | c :: cs =>
      if c = q then some ([], cs)
      else
        match takeUntil q cs with
        | some (s, rest) => some (c :: s, rest)
        | none => none

/-- Parse a literal operand: a quoted string or an integer numeral. -/
def parseLitToken (cs : List Char) : Option (Lit × List Char) :=
  match cs with
  | '\'' :: rest => (takeUntil '\'' rest).map (fun p => (.str (String.mk p.1), p.2))
  | '"' :: rest => (takeUntil '"' rest).map (fun p => (.str (String.mk p.1), p.2))
  | _ => (parseNum cs).map (fun p => (.num p.1, p.2))

/-- Modelled from the spec in part: the source appends the condition string to
a pandas column expression and runs Python `eval` on the result; the admissible
condition strings are exactly the comparison suffixes `<operator><literal>`
(operator among `==`, `!=`, `>`, `>=`, `<`, `<=`; literal a numeric or quoted
string constant, surrounded by optional blanks).  This parser accepts exactly
that grammar and rejects everything else, which is the `SyntaxError` the
dynamic evaluation raises on a malformed condition such as `?? 5`. -/
def parseCondition (s : String) : Option (CmpOp × Lit) :=
  let cs := s.toList.dropWhile (fun c => c = ' ')
  match parseOp cs with
  | none => none
  | some (op, rest) =>
      match parseLitToken (rest.dropWhile (fun c => c = ' ')) with
      | none => none
      | some (l, rest2) =>
          if rest2.dropWhile (fun c => c = ' ') = [] then some (op, l) else none

/-- A dataframe: a list of named columns, in column order.  The `level_id`
column is an ordinary column, exactly as in the pandas frame. -/
structure Table where
  cols : List (String × List Cell)
deriving DecidableEq, Repr

/-- Read a column by name (the first column with that label, as pandas column
lookup does). -/
def getCol (t : Table) (k : String) : Option (List Cell) :=
  (t.cols.find? (fun p => p.1 == k)).map (fun p => p.2)

/-- Write a column: replace it in place when the label exists, append a new
column otherwise (the enlargement behaviour of a `df.loc[...] = ...`
assignment on a fresh label). -/
def setCol (t : Table) (k : String) (c : List Cell) : Table :=
  if (t.cols.find? (fun p => p.1 == k)).isSome then
    ⟨t.cols.map (fun p => if p.1 == k then (k, c) else p)⟩
  else ⟨t.cols ++ [(k, c)]⟩

/-- The cell of column `k` at row `i`; `none` when the column or the row does
not exist, `some none` for an existing NaN cell. -/
def cellAt (t : Table) (k : String) (i : Nat) : Option Cell :=
  (getCol t k).bind (fun col => col.get? i)

/-- One profile rule: `{default_value, condition?}`. -/
structure FieldRule where
  default_value : Lit
  condition : Option String
deriving DecidableEq, Repr

/-- Python truthiness of `v.get('condition')`: the conditional branch is taken
only when the key is present and its string is non-empty. -/
def condTruthy : Option String → Bool
  | none => false
  | some s => s != ""

/-- The exceptions the pass can raise: `KeyError` on an unknown level name,
`AttributeError` on a frame without `level_id`, `KeyError` on a `.loc` read of
a missing field column, `SyntaxError` from `eval` on a malformed condition,
and `TypeError` from an ordering comparison across incompatible kinds. -/
inductive EngineError where
  | unknownLevel (level : String)
  | missingLevelId
  | missingColumn (field : String)
  | malformedCondition (cond : String)
  | typeError
deriving DecidableEq, Repr

/-- The boolean mask `df.level_id == level_id`. -/
def maskOf (lv : List Cell) (lid : Int) : List Bool :=
  lv.map (fun c => c == some (.num lid))

/-- The unconditional branch `df.loc[df.level_id == level_id, k] = default` on
an existing column: rows in scope receive the default, the rest keep their
value. -/
def uncondAssign (mask : List Bool) (col : List Cell) (d : Lit) : List Cell :=
  List.zipWith (fun m c => if m then some d else c) mask col

/-- The unconditional branch on a missing column: pandas creates the column,
rows in scope receive the default and all other rows NaN. -/
def newColFor (mask : List Bool) (d : Lit) : List Cell :=
  mask.map (fun m => if m then some d else none)

/-- The conditional branch
`df.loc[mask, k] = df.loc[mask, k].where(df.loc[mask, k] <op> <lit>, default)`:
on each row in scope the current value is kept when the comparison holds and
replaced by the default when it does not; a `TypeError` in the comparison of
any in-scope cell aborts the whole branch.  Rows outside the mask keep their
value. -/
def condAssign (mask : List Bool) (col : List Cell) (op : CmpOp) (l : Lit) (d : Lit) :
    Except EngineError (List Cell) :=
  match mask, col with
  | [], _ => .ok []
  | _, [] => .ok []
  | m :: ms, c :: cs =>
      match condAssign ms cs op l d with
      | .error e => .error e
      | .ok rest =>
          if m then
            match cmpCell op c l with
            | none => .error .typeError
            | some b => .ok ((if b then c else some d) :: rest)
          else .ok (c :: rest)

/-- The per-column work of one rule on an existing column: the conditional
branch when the condition is truthy (with the `eval` of the condition string),
the unconditional branch otherwise. -/
def transformCol (mask : List Bool) (col : List Cell) (v : FieldRule) :
    Except EngineError (List Cell) :=
  if condTruthy v.condition then
    match parseCondition (v.condition.getD "") with
    | none => .error (.malformedCondition (v.condition.getD ""))
    | some (op, l) => condAssign mask col op l v.default_value
  else .ok (uncondAssign mask col v.default_value)

/-- One `(level_id, field, rule)` step of the loop body of
`assign_defaults_to_il_inputs`: read `df.level_id`, build the scope mask, and
apply the rule to the field column.  A conditional rule first reads
`df.loc[df.level_id == level_id, k]`, which raises `KeyError` when the column
is absent; an unconditional assignment on an absent column creates it. -/
def applyRule (levelId : Int) (k : String) (v : FieldRule) (df : Table) :
    Except EngineError Table :=
  match getCol df "level_id" with
  | none => .error .missingLevelId
  | some lv =>
      let mask := maskOf lv levelId
      match getCol df k with
      | some col =>
          match transformCol mask col v with
          | .error e => .error e
          | .ok nc => .ok (setCol df k nc)
      | none =>
          if condTruthy v.condition then .error (.missingColumn k)
          else .ok (setCol df k (newColFor mask v.default_value))

/-- The inner loop `for k, v in default_fm_profile_field_values[level].items()`. -/
def applyFields (levelId : Int) (fields : List (String × FieldRule)) (df : Table) :
    Except EngineError Table :=
  match fields with
  | [] => .ok df
  | (k, v) :: rest =>
      match applyRule levelId k v df with
      | .error e => .error e
      | .ok df1 => applyFields levelId rest df1

/-- One iteration of the outer loop: `level_id = SUPPORTED_FM_LEVELS[level]['id']`
(a `KeyError` when the level name is unknown) followed by the field loop. -/
def applyLevel (levelIds : List (String × Int)) (level : String)
    (fields : List (String × FieldRule)) (df : Table) : Except EngineError Table :=
  match levelIds.lookup level with
  | none => .error (.unknownLevel level)
  | some lid => applyFields lid fields df

/-- The whole pass `assign_defaults_to_il_inputs(df)`, with the profile
(`get_default_fm_profile_field_values()`) and the level-id mapping
(`SUPPORTED_FM_LEVELS`, restricted to its `id` entries) supplied as
parameters, matching the specification's interface
`apply_defaults(table, rule_profile, level_ids)`. -/
def assign_defaults_to_il_inputs (levelIds : List (String × Int))
    (profile : List (String × List (String × FieldRule))) (df : Table) :
    Except EngineError Table :=
  match profile with
  | [] => .ok df
  | (level, fields) :: rest =>
      match applyLevel levelIds level fields df with
      | .error e => .error e
      | .ok df1 => assign_defaults_to_il_inputs levelIds rest df1

/-- Running the pass twice in succession, failures propagating. -/
def applyTwice (levelIds : List (String × Int))
    (profile : List (String × List (String × FieldRule))) (df : Table) :
    Except EngineError Table :=
  match assign_defaults_to_il_inputs levelIds profile df with
  | .error e => .error e
  | .ok df1 => assign_defaults_to_il_inputs levelIds profile df1

/-- Decidable equality on pass outcomes, for concrete evaluation. -/
instance : DecidableEq (Except EngineError Table) := fun a b =>
  match a, b with
  | .error e, .error e' =>
      match decEq e e' with
      | isTrue h => isTrue (by rw [h])
      | isFalse h => isFalse (fun hh => by cases hh; exact h rfl)
  | .ok t, .ok t' =>
      match decEq t t' with
      | isTrue h => isTrue (by rw [h])
      | isFalse h => isFalse (fun hh => by cases hh; exact h rfl)
  | .error _, .ok _ => isFalse (fun hh => by cases hh)
  | .ok _, .error _ => isFalse (fun hh => by cases hh)

/-- The flattened loop body: the sequence of `(level_id, field, rule)` steps
the nested loops perform, in iteration order. -/
def applyRules (rs : List (Int × String × FieldRule)) (df : Table) :
    Except EngineError Table :=
  match rs with
  | [] => .ok df
  | r :: rest =>
      match applyRule r.1 r.2.1 r.2.2 df with
      | .error e => .error e
      | .ok df1 => applyRules rest df1

/-- The rule triples of a profile, levels resolved through the mapping (the
`getD` is never exercised when every level resolves). -/
def flatRules (levelIds : List (String × Int))
    (profile : List (String × List (String × FieldRule))) :
    List (Int × String × FieldRule) :=
  profile.flatMap (fun p => p.2.map (fun kv => ((levelIds.lookup p.1).getD 0, kv.1, kv.2)))

/-- One rule application that leaves the table exactly as it found it. -/
def Fixed (r : Int × String × FieldRule) (t : Table) : Prop :=
  applyRule r.1 r.2.1 r.2.2 t = .ok t

/-- Two rule steps that cannot target the same `(level id, field)` pair:
they come from different levels (distinct resolved ids) or different fields. -/
def Compat (r r2 : Int × String × FieldRule) : Prop :=
  r.1 ≠ r2.1 ∨ r.2.1 ≠ r2.2.1

/-- A rule whose default value is itself comparable under the rule's own
condition (the specification's "defaults are assumed valid"): re-comparing the
assigned default raises no `TypeError`. -/
def defaultCompatible (v : FieldRule) : Bool :=
  if condTruthy v.condition then
    match parseCondition (v.condition.getD "") with
    | some (op, l) => cmpCell op (some v.default_value) l != none
    | none => true
  else true

/-- The value a rule leaves in one in-scope cell when its application
succeeds: the default for a condition-less rule, and for a conditional rule
the current value when the comparison holds, the default otherwise. -/
def ruleCellSem (v : FieldRule) (c : Cell) : Cell :=
  if condTruthy v.condition then
    match parseCondition (v.condition.getD "") with
    | some (op, l) =>
        match cmpCell op c l with
        | some true => c
        | _ => some v.default_value
    | none => c
  else some v.default_value

/-! ### List infrastructure -/

theorem zipWith_get?_bind {α β γ : Type} (f : α → β → γ) (as : List α) (bs : List β)
    (i : Nat) :
    (List.zipWith f as bs).get? i = (as.get? i).bind (fun a => (bs.get? i).map (f a)) := by
  rw [List.get?_zipWith']
  cases as.get? i <;> cases bs.get? i <;> simp

theorem maskOf_get? (lv : List Cell) (lid : Int) (i : Nat) :
    (maskOf lv lid).get? i = (lv.get? i).map (fun c => c == some (.num lid)) := by
  simp [maskOf, List.get?_map]

theorem maskOf_length (lv : List Cell) (lid : Int) : (maskOf lv lid).length = lv.length := by
  simp [maskOf]

/-! ### Column read/write lemmas -/

theorem find?_key_map_set (k : String) (c : List Cell) :
    ∀ l : List (String × List Cell), (l.find? (fun p => p.1 == k)).isSome = true →
      (l.map (fun p => if p.1 == k then (k, c) else p)).find? (fun p => p.1 == k) =
        some (k, c) := by
  intro l
  induction l with
  | nil => intro h; simp [List.find?] at h
  | cons p l ih =>
      intro h
      by_cases hp : p.1 = k
      · have hp' : (p.1 == k) = true := by simp [hp]
        rw [List.map_cons, if_pos hp']
        exact List.find?_cons_of_pos _ (by simp)
      · have hp' : (p.1 == k) = false := by simp [hp]
        rw [List.find?_cons_of_neg _ (by simp [hp])] at h
        rw [List.map_cons, if_neg (by simp [hp']), List.find?_cons_of_neg _ (by simp [hp])]
        exact ih h

theorem find?_key_map_ne {k k' : String} (h : k' ≠ k) (c : List Cell) :
    ∀ l : List (String × List Cell),
      (l.map (fun p => if p.1 == k then (k, c) else p)).find? (fun p => p.1 == k') =
        l.find? (fun p => p.1 == k') := by
  intro l
  induction l with
  | nil => simp
  | cons p l ih =>
      by_cases hp : p.1 = k
      · have hp' : (p.1 == k) = true := by simp [hp]
        have h1 : ¬ (((k, c) : String × List Cell).1 == k') = true := by
          simp only [beq_iff_eq]; exact fun hh => h hh.symm
        have h2 : ¬ ((p.1 == k') = true) := by
          simp only [beq_iff_eq, hp]; exact fun hh => h hh.symm
        rw [List.map_cons, if_pos hp',
          @List.find?_cons_of_neg _ (fun p => p.1 == k') (k, c) _ h1,
          @List.find?_cons_of_neg _ (fun p => p.1 == k') p _ h2]
        exact ih
      · have hp' : (p.1 == k) = false := by simp [hp]
        rw [List.map_cons, if_neg (by simp [hp'])]
        by_cases hc : p.1 = k'
        · rw [List.find?_cons_of_pos _ (by simp [hc]), List.find?_cons_of_pos _ (by simp [hc])]
        · rw [List.find?_cons_of_neg _ (by simp [hc]), List.find?_cons_of_neg _ (by simp [hc])]
          exact ih

theorem find?_key_append_none {k : String} {l : List (String × List Cell)}
    (h : l.find? (fun p => p.1 == k) = none) (c : List Cell) :
    (l ++ [(k, c)]).find? (fun p => p.1 == k) = some (k, c) := by
  induction l with
  | nil => exact List.find?_cons_of_pos _ (by simp)
  | cons p l ih =>
      by_cases hp : p.1 = k
      · rw [List.find?_cons_of_pos _ (by simp [hp])] at h
        exact absurd h (by simp)
      · rw [List.find?_cons_of_neg _ (by simp [hp])] at h
        rw [List.cons_append, List.find?_cons_of_neg _ (by simp [hp])]
        exact ih h

theorem find?_key_append_ne {k k' : String} (h : k' ≠ k) (c : List Cell)
    (l : List (String × List Cell)) :
    (l ++ [(k, c)]).find? (fun p => p.1 == k') = l.find? (fun p => p.1 == k') := by
  induction l with
  | nil =>
      have h1 : ¬ (((k, c) : String × List Cell).1 == k') = true := by
        simp only [beq_iff_eq]; exact fun hh => h hh.symm
      rw [List.nil_append, @List.find?_cons_of_neg _ (fun p => p.1 == k') (k, c) _ h1]
  | cons p l ih =>
      by_cases hc : p.1 = k'
      · rw [List.cons_append, List.find?_cons_of_pos _ (by simp [hc]),
          List.find?_cons_of_pos _ (by simp [hc])]
      · rw [List.cons_append, List.find?_cons_of_neg _ (by simp [hc]),
          List.find?_cons_of_neg _ (by simp [hc])]
        exact ih

theorem getCol_setCol_self (t : Table) (k : String) (c : List Cell) :
    getCol (setCol t k c) k = some c := by
  unfold setCol
  by_cases h : (t.cols.find? (fun p => p.1 == k)).isSome = true
  · rw [if_pos h]
    unfold getCol
    rw [find?_key_map_set k c t.cols h]
    rfl
  · rw [if_neg h]
    unfold getCol
    have hn : t.cols.find? (fun p => p.1 == k) = none := by
      cases hf : t.cols.find? (fun p => p.1 == k) with
      | none => rfl
      | some p => rw [hf] at h; exact absurd (by simp) h
    rw [find?_key_append_none hn c]
    rfl

theorem getCol_setCol_ne (t : Table) {k k' : String} (h : k' ≠ k) (c : List Cell) :
    getCol (setCol t k c) k' = getCol t k' := by
  unfold setCol
  by_cases hs : (t.cols.find? (fun p => p.1 == k)).isSome = true
  · rw [if_pos hs]; unfold getCol; rw [find?_key_map_ne h c t.cols]
  · rw [if_neg hs]; unfold getCol; rw [find?_key_append_ne h c t.cols]

theorem find?_isSome_of_getCol {t : Table} {k : String}
    (h : (getCol t k).isSome = true) :
    (t.cols.find? (fun p => p.1 == k)).isSome = true := by
  unfold getCol at h
  cases hf : t.cols.find? (fun p => p.1 == k) with
  | none => rw [hf] at h; simp at h
  | some p => simp

theorem find?_none_of_getCol {t : Table} {k : String}
    (h : ¬ (getCol t k).isSome = true) :
    t.cols.find? (fun p => p.1 == k) = none := by
  unfold getCol at h
  cases hf : t.cols.find? (fun p => p.1 == k) with
  | none => rfl
  | some p => rw [hf] at h; exact absurd (by simp) h

theorem setCol_of_present {t : Table} {k : String}
    (h : (t.cols.find? (fun p => p.1 == k)).isSome = true) (c : List Cell) :
    setCol t k c = ⟨t.cols.map (fun p => if p.1 == k then (k, c) else p)⟩ := by
  unfold setCol; rw [if_pos h]

theorem setCol_of_absent {t : Table} {k : String}
    (h : t.cols.find? (fun p => p.1 == k) = none) (c : List Cell) :
    setCol t k c = ⟨t.cols ++ [(k, c)]⟩ := by
  unfold setCol; rw [if_neg (by rw [h]; simp)]

theorem setCol_setCol (t : Table) (k : String) (a b : List Cell) :
    setCol (setCol t k a) k b = setCol t k b := by
  by_cases h : (t.cols.find? (fun p => p.1 == k)).isSome = true
  · have e1 := setCol_of_present h a
    have h2 : ((setCol t k a).cols.find? (fun p => p.1 == k)).isSome = true := by
      rw [e1]
      show ((t.cols.map (fun p => if p.1 == k then (k, a) else p)).find?
        (fun p => p.1 == k)).isSome = true
      rw [find?_key_map_set k a t.cols h]; rfl
    rw [setCol_of_present h2 b, setCol_of_present h b, e1]
    congr 1
    show (t.cols.map (fun p => if p.1 == k then (k, a) else p)).map
        (fun p => if p.1 == k then (k, b) else p) =
      t.cols.map (fun p => if p.1 == k then (k, b) else p)
    rw [List.map_map]
    apply List.map_congr_left
    intro p _
    by_cases hp : p.1 = k
    · simp [Function.comp, hp]
    · simp [Function.comp, hp]
  · have hn : t.cols.find? (fun p => p.1 == k) = none := by
      cases hf : t.cols.find? (fun p => p.1 == k) with
      | none => rfl
      | some p => rw [hf] at h; exact absurd (by simp) h
    have e1 := setCol_of_absent hn a
    have h2 : ((setCol t k a).cols.find? (fun p => p.1 == k)).isSome = true := by
      rw [e1]
      show ((t.cols ++ [(k, a)]).find? (fun p => p.1 == k)).isSome = true
      rw [find?_key_append_none hn a]; rfl
    rw [setCol_of_present h2 b, setCol_of_absent hn b, e1]
    congr 1
    show (t.cols ++ [(k, a)]).map (fun p => if p.1 == k then (k, b) else p) =
      t.cols ++ [(k, b)]
    rw [List.map_append]
    have hfix : t.cols.map (fun p => if p.1 == k then (k, b) else p) = t.cols := by
      have hall := List.find?_eq_none.mp hn
      calc t.cols.map (fun p => if p.1 == k then (k, b) else p)
      _ = t.cols.map id := by
            apply List.map_congr_left
            intro p hp
            have : ¬ ((p.1 == k) = true) := hall p hp
            simp [this]
      _ = t.cols := List.map_id t.cols
    rw [hfix]
    simp

theorem setCol_comm (t : Table) {k k' : String} (h : k ≠ k')
    (hk : (getCol t k).isSome = true) (a b : List Cell) :
    setCol (setCol t k a) k' b = setCol (setCol t k' b) k a := by
  have hks := find?_isSome_of_getCol hk
  by_cases hk' : (t.cols.find? (fun p => p.1 == k')).isSome = true
  · -- both columns present: the two in-place updates commute pointwise
    have e1 := setCol_of_present hks a
    have e2 := setCol_of_present hk' b
    have f1 : ((setCol t k a).cols.find? (fun p => p.1 == k')).isSome = true := by
      rw [e1]
      show ((t.cols.map (fun p => if p.1 == k then (k, a) else p)).find?
        (fun p => p.1 == k')).isSome = true
      rw [find?_key_map_ne (fun hh => h hh.symm) a t.cols]
      exact hk'
    have f2 : ((setCol t k' b).cols.find? (fun p => p.1 == k)).isSome = true := by
      rw [e2]
      show ((t.cols.map (fun p => if p.1 == k' then (k', b) else p)).find?
        (fun p => p.1 == k)).isSome = true
      rw [find?_key_map_ne h b t.cols]
      exact hks
    rw [setCol_of_present f1 b, setCol_of_present f2 a, e1, e2]
    congr 1
    show (t.cols.map (fun p => if p.1 == k then (k, a) else p)).map
        (fun p => if p.1 == k' then (k', b) else p) =
      (t.cols.map (fun p => if p.1 == k' then (k', b) else p)).map
        (fun p => if p.1 == k then (k, a) else p)
    rw [List.map_map, List.map_map]
    apply List.map_congr_left
    intro p _
    by_cases hp : p.1 = k
    · have hp' : ¬ p.1 = k' := fun hh => h (hp ▸ hh ▸ rfl)
      have hkk : ¬ ((k : String) = k') := h
      simp [Function.comp, hp, hp', hkk]
    · by_cases hq : p.1 = k'
      · have hkk : ¬ ((k' : String) = k) := fun hh => h hh.symm
        simp [Function.comp, hp, hq, hkk]
      · simp [Function.comp, hp, hq]
  · -- k' absent: it is appended on both sides, after/before the k update
    have hn' : t.cols.find? (fun p => p.1 == k') = none := by
      cases hf : t.cols.find? (fun p => p.1 == k') with
      | none => rfl
      | some p => rw [hf] at hk'; exact absurd (by simp) hk'
    have e1 := setCol_of_present hks a
    have e2 := setCol_of_absent hn' b
    have f1 : ((setCol t k a).cols.find? (fun p => p.1 == k')) = none := by
      rw [e1]
      show ((t.cols.map (fun p => if p.1 == k then (k, a) else p)).find?
        (fun p => p.1 == k')) = none
      rw [find?_key_map_ne (fun hh => h hh.symm) a t.cols]
      exact hn'
    have f2 : ((setCol t k' b).cols.find? (fun p => p.1 == k)).isSome = true := by
      rw [e2]
      show ((t.cols ++ [(k', b)]).find? (fun p => p.1 == k)).isSome = true
      rw [find?_key_append_ne h b t.cols]
      exact hks
    rw [setCol_of_absent f1 b, setCol_of_present f2 a, e1, e2]
    congr 1
    show t.cols.map (fun p => if p.1 == k then (k, a) else p) ++ [(k', b)] =
      (t.cols ++ [(k', b)]).map (fun p => if p.1 == k then (k, a) else p)
    rw [List.map_append]
    congr 1
    show [(k', b)] = [if (k' == k) = true then (k, a) else (k', b)]
    have : ¬ ((k' == k) = true) := by simp; exact fun hh => h hh.symm
    simp [this]

theorem map_set_eq_of_nodup (k : String) (c : List Cell) :
    ∀ l : List (String × List Cell), (l.map Prod.fst).Nodup →
      (l.find? (fun p => p.1 == k)).map (fun p => p.2) = some c →
      l.map (fun p => if p.1 == k then (k, c) else p) = l := by
  intro l
  induction l with
  | nil => intro _ hf; simp [List.find?] at hf
  | cons p l ih =>
      intro hnd hf
      rw [List.map_cons, List.nodup_cons] at hnd
      by_cases hp : p.1 = k
      · rw [List.find?_cons_of_pos _ (by simp [hp])] at hf
        have hpc : p.2 = c := by simpa using hf
        have hhead : (if p.1 == k then (k, c) else p) = p := by
          rw [if_pos (by simp [hp])]
          calc (k, c) = (p.1, p.2) := by rw [hp, hpc]
          _ = p := rfl
        have htail : l.map (fun p => if p.1 == k then (k, c) else p) = l := by
          calc l.map (fun p => if p.1 == k then (k, c) else p) = l.map id := by
                apply List.map_congr_left
                intro q hq
                have : ¬ (q.1 = k) := by
                  intro hqk
                  exact hnd.1 (by rw [hp, ← hqk]; exact List.mem_map_of_mem Prod.fst hq)
                simp [this]
          _ = l := List.map_id l
        rw [List.map_cons, hhead, htail]
      · rw [List.find?_cons_of_neg _ (by simp [hp])] at hf
        rw [List.map_cons, if_neg (by simp [hp]), ih hnd.2 hf]

theorem setCol_self (t : Table) {k : String} {c : List Cell}
    (hnd : (t.cols.map Prod.fst).Nodup) (h : getCol t k = some c) :
    setCol t k c = t := by
  have hks : (t.cols.find? (fun p => p.1 == k)).isSome = true := by
    unfold getCol at h
    cases hf : t.cols.find? (fun p => p.1 == k) with
    | none => rw [hf] at h; simp at h
    | some p => simp
  unfold setCol
  rw [if_pos hks]
  have : t.cols.map (fun p => if p.1 == k then (k, c) else p) = t.cols :=
    map_set_eq_of_nodup k c t.cols hnd h
  rw [this]

/-! ### Pointwise behaviour of the two assignment branches -/

theorem uncondAssign_get? (mask : List Bool) (col : List Cell) (d : Lit) (i : Nat) :
    (uncondAssign mask col d).get? i =
      (mask.get? i).bind (fun m => (col.get? i).map (fun c => if m then some d else c)) := by
  unfold uncondAssign
  rw [zipWith_get?_bind]

theorem uncondAssign_length (mask : List Bool) (col : List Cell) (d : Lit) :
    (uncondAssign mask col d).length = min mask.length col.length := by
  unfold uncondAssign
  exact List.length_zipWith _ _ _

theorem newColFor_get? (mask : List Bool) (d : Lit) (i : Nat) :
    (newColFor mask d).get? i = (mask.get? i).map (fun m => if m then some d else none) := by
  unfold newColFor
  rw [List.get?_map]

theorem newColFor_length (mask : List Bool) (d : Lit) :
    (newColFor mask d).length = mask.length := by
  simp [newColFor]

theorem uncondAssign_self (d : Lit) :
    ∀ (mask : List Bool) (col : List Cell), col.length ≤ mask.length →
      (∀ i c, mask.get? i = some true → col.get? i = some c → c = some d) →
      uncondAssign mask col d = col := by
  intro mask
  induction mask with
  | nil =>
      intro col hlen _
      have : col = [] := List.length_eq_zero.mp (Nat.le_zero.mp hlen)
      subst this
      rfl
  | cons m ms ih =>
      intro col hlen hst
      cases col with
      | nil => rfl
      | cons c cs =>
          show (if m then some d else c) :: uncondAssign ms cs d = c :: cs
          have htail : uncondAssign ms cs d = cs := by
            apply ih cs (Nat.le_of_succ_le_succ hlen)
            intro i x hm hc
            exact hst (i + 1) x hm hc
          cases m with
          | false => rw [htail]; rfl
          | true =>
              have hc : c = some d := hst 0 c rfl rfl
              rw [htail, if_pos rfl, hc]

theorem condAssign_nil {op : CmpOp} {l d : Lit} (col : List Cell) :
    condAssign [] col op l d = .ok [] := by
  cases col <;> rfl

theorem condAssign_nil_col {op : CmpOp} {l d : Lit} (mask : List Bool) :
    condAssign mask [] op l d = .ok [] := by
  cases mask <;> rfl

theorem condAssign_cons {op : CmpOp} {l d : Lit} (m : Bool) (ms : List Bool)
    (c : Cell) (cs : List Cell) :
    condAssign (m :: ms) (c :: cs) op l d =
      match condAssign ms cs op l d with
      | .error e => .error e
      | .ok rest =>
          if m then
            match cmpCell op c l with
            | none => .error .typeError
            | some b => .ok ((if b then c else some d) :: rest)
          else .ok (c :: rest) := rfl

theorem condAssign_cons_ok {op : CmpOp} {l d : Lit} {m : Bool} {ms : List Bool}
    {c : Cell} {cs rest : List Cell} (hrest : condAssign ms cs op l d = .ok rest) :
    condAssign (m :: ms) (c :: cs) op l d =
      if m then
        match cmpCell op c l with
        | none => .error .typeError
        | some b => .ok ((if b then c else some d) :: rest)
      else .ok (c :: rest) := by
  rw [condAssign_cons, hrest]

theorem condAssign_cons_error {op : CmpOp} {l d : Lit} {m : Bool} {ms : List Bool}
    {c : Cell} {cs : List Cell} {e : EngineError}
    (hrest : condAssign ms cs op l d = .error e) :
    condAssign (m :: ms) (c :: cs) op l d = .error e := by
  rw [condAssign_cons, hrest]

theorem condAssign_ok_length {op : CmpOp} {l d : Lit} :
    ∀ {mask : List Bool} {col out : List Cell},
      condAssign mask col op l d = .ok out → out.length = min mask.length col.length := by
  intro mask
  induction mask with
  | nil =>
      intro col out h
      rw [condAssign_nil] at h
      cases h
      simp
  | cons m ms ih =>
      intro col out h
      cases col with
      | nil =>
          rw [condAssign_nil_col] at h
          cases h
          simp
      | cons c cs =>
          cases hrest : condAssign ms cs op l d with
          | error e => rw [condAssign_cons_error hrest] at h; exact absurd h (by simp)
          | ok rest =>
              rw [condAssign_cons_ok hrest] at h
              have hlen := ih hrest
              cases m with
              | false =>
                  rw [if_neg Bool.false_ne_true] at h
                  cases h
                  simpa [Nat.succ_min_succ] using hlen
              | true =>
                  rw [if_pos rfl] at h
                  cases hcmp : cmpCell op c l with
                  | none => simp [hcmp] at h
                  | some b =>
                      rw [hcmp] at h
                      cases h
                      simpa [Nat.succ_min_succ] using hlen

theorem condAssign_get?_false {op : CmpOp} {l d : Lit} :
    ∀ {mask : List Bool} {col out : List Cell} {i : Nat},
      condAssign mask col op l d = .ok out → mask.get? i = some false →
      out.get? i = col.get? i := by
  intro mask
  induction mask with
  | nil => intro col out i _ hm; simp at hm
  | cons m ms ih =>
      intro col out i h hm
      cases col with
      | nil =>
          rw [condAssign_nil_col] at h
          cases h
          rfl
      | cons c cs =>
          cases hrest : condAssign ms cs op l d with
          | error e => rw [condAssign_cons_error hrest] at h; exact absurd h (by simp)
          | ok rest =>
              rw [condAssign_cons_ok hrest] at h
              cases i with
              | zero =>
                  have hm0 : m = false := by
                    have hsome : some m = some false := hm
                    exact Option.some.inj hsome
                  subst hm0
                  rw [if_neg Bool.false_ne_true] at h
                  cases h
                  rfl
              | succ n =>
                  have hm' : ms.get? n = some false := hm
                  cases m with
                  | false =>
                      rw [if_neg Bool.false_ne_true] at h
                      cases h
                      show rest.get? n = cs.get? n
                      exact ih hrest hm'
                  | true =>
                      rw [if_pos rfl] at h
                      cases hcmp : cmpCell op c l with
                      | none => simp [hcmp] at h
                      | some b =>
                          rw [hcmp] at h
                          cases h
                          show rest.get? n = cs.get? n
                          exact ih hrest hm'

theorem condAssign_get?_true {op : CmpOp} {l d : Lit} :
    ∀ {mask : List Bool} {col out : List Cell} {i : Nat} {c : Cell},
      condAssign mask col op l d = .ok out → mask.get? i = some true →
      col.get? i = some c →
      ∃ b, cmpCell op c l = some b ∧ out.get? i = some (if b then c else some d) := by
  intro mask
  induction mask with
  | nil => intro col out i c _ hm; simp at hm
  | cons m ms ih =>
      intro col out i c h hm hc
      cases col with
      | nil => simp at hc
      | cons c0 cs =>
          cases hrest : condAssign ms cs op l d with
          | error e => rw [condAssign_cons_error hrest] at h; exact absurd h (by simp)
          | ok rest =>
              rw [condAssign_cons_ok hrest] at h
              cases i with
              | zero =>
                  have hm0 : m = true := by
                    have hsome : some m = some true := hm
                    exact Option.some.inj hsome
                  have hc0 : c0 = c := by
                    have hsome : some c0 = some c := hc
                    exact Option.some.inj hsome
                  subst hm0
                  subst hc0
                  rw [if_pos rfl] at h
                  cases hcmp : cmpCell op c0 l with
                  | none => simp [hcmp] at h
                  | some b =>
                      rw [hcmp] at h
                      cases h
                      exact ⟨b, rfl, rfl⟩
              | succ n =>
                  have hm' : ms.get? n = some true := hm
                  have hc' : cs.get? n = some c := hc
                  cases m with
                  | false =>
                      rw [if_neg Bool.false_ne_true] at h
                      cases h
                      show ∃ b, cmpCell op c l = some b ∧
                        rest.get? n = some (if b then c else some d)
                      exact ih hrest hm' hc'
                  | true =>
                      rw [if_pos rfl] at h
                      cases hcmp : cmpCell op c0 l with
                      | none => simp [hcmp] at h
                      | some b =>
                          rw [hcmp] at h
                          cases h
                          show ∃ b2, cmpCell op c l = some b2 ∧
                            rest.get? n = some (if b2 then c else some d)
                          exact ih hrest hm' hc'

theorem condAssign_ok_of_defined {op : CmpOp} {l d : Lit} :
    ∀ (mask : List Bool) (col : List Cell),
      (∀ i c, mask.get? i = some true → col.get? i = some c → cmpCell op c l ≠ none) →
      ∃ out, condAssign mask col op l d = .ok out := by
  intro mask
  induction mask with
  | nil => intro col _; exact ⟨[], condAssign_nil col⟩
  | cons m ms ih =>
      intro col hdef
      cases col with
      | nil => exact ⟨[], condAssign_nil_col _⟩
      | cons c cs =>
          obtain ⟨rest, hrest⟩ := ih cs (fun i x hm hc => hdef (i + 1) x hm hc)
          cases m with
          | false =>
              refine ⟨c :: rest, ?_⟩
              rw [condAssign_cons_ok hrest, if_neg Bool.false_ne_true]
          | true =>
              cases hcmp : cmpCell op c l with
              | none => exact absurd hcmp (hdef 0 c rfl rfl)
              | some b =>
                  refine ⟨(if b then c else some d) :: rest, ?_⟩
                  rw [condAssign_cons_ok hrest, if_pos rfl, hcmp]

theorem condAssign_ok_self {op : CmpOp} {l d : Lit} :
    ∀ (mask : List Bool) (col : List Cell), col.length ≤ mask.length →
      (∀ i c, mask.get? i = some true → col.get? i = some c →
        ∃ b, cmpCell op c l = some b ∧ (if b then c else some d) = c) →
      condAssign mask col op l d = .ok col := by
  intro mask
  induction mask with
  | nil =>
      intro col hlen _
      have : col = [] := List.length_eq_zero.mp (Nat.le_zero.mp hlen)
      subst this
      exact condAssign_nil []
  | cons m ms ih =>
      intro col hlen hst
      cases col with
      | nil => exact condAssign_nil_col _
      | cons c cs =>
          have htail : condAssign ms cs op l d = .ok cs :=
            ih cs (Nat.le_of_succ_le_succ hlen) (fun i x hm hc => hst (i + 1) x hm hc)
          rw [condAssign_cons_ok htail]
          cases m with
          | false => rw [if_neg Bool.false_ne_true]
          | true =>
              obtain ⟨b, hb, hbc⟩ := hst 0 c rfl rfl
              rw [if_pos rfl, hb]
              show Except.ok ((if b then c else some d) :: cs) =
                (Except.ok (c :: cs) : Except EngineError (List Cell))
              rw [hbc]

theorem condAssign_stable {op : CmpOp} {l d : Lit} {mask : List Bool}
    {col out : List Cell} (h : condAssign mask col op l d = .ok out)
    (hd : cmpCell op (some d) l ≠ none) :
    condAssign mask out op l d = .ok out := by
  apply condAssign_ok_self
  · have := condAssign_ok_length h
    rw [this]
    exact Nat.min_le_left _ _
  · intro i c hm hc
    have hi : i < out.length := by
      by_contra hlt
      rw [List.get?_eq_none.mpr (Nat.le_of_not_lt hlt)] at hc
      cases hc
    have hic : i < col.length := by
      have hl := condAssign_ok_length h
      rw [hl] at hi
      exact Nat.lt_of_lt_of_le hi (Nat.min_le_right _ _)
    obtain ⟨c0, hc0⟩ : ∃ c0, col.get? i = some c0 := by
      cases hg : col.get? i with
      | none => exact absurd (List.get?_eq_none.mp hg) (Nat.not_le_of_lt hic)
      | some x => exact ⟨x, rfl⟩
    obtain ⟨b, hb, hout⟩ := condAssign_get?_true h hm hc0
    rw [hc] at hout
    have hcb : c = if b then c0 else some d := by
      have := hout.symm
      cases this
      rfl
    cases b with
    | true =>
        rw [if_pos rfl] at hcb
        subst hcb
        exact ⟨true, hb, by rw [if_pos rfl]⟩
    | false =>
        rw [if_neg (by simp)] at hcb
        subst hcb
        cases hcmp : cmpCell op (some d) l with
        | none => exact absurd hcmp hd
        | some b' =>
            refine ⟨b', rfl, ?_⟩
            cases b' <;> simp

/-! ### Evaluation lemmas for one rule application -/

theorem transformCol_uncond {mask : List Bool} {col : List Cell} {v : FieldRule}
    (ht : condTruthy v.condition = false) :
    transformCol mask col v = .ok (uncondAssign mask col v.default_value) := by
  unfold transformCol
  rw [ht]
  rfl

theorem transformCol_malformed {mask : List Bool} {col : List Cell} {v : FieldRule}
    (ht : condTruthy v.condition = true)
    (hp : parseCondition (v.condition.getD "") = none) :
    transformCol mask col v = .error (.malformedCondition (v.condition.getD "")) := by
  unfold transformCol
  rw [ht, hp]
  rfl

theorem transformCol_cond {mask : List Bool} {col : List Cell} {v : FieldRule}
    {op : CmpOp} {l : Lit} (ht : condTruthy v.condition = true)
    (hp : parseCondition (v.condition.getD "") = some (op, l)) :
    transformCol mask col v = condAssign mask col op l v.default_value := by
  unfold transformCol
  rw [ht, hp]
  rfl

theorem applyRule_no_levelid {lid : Int} {k : String} {v : FieldRule} {df : Table}
    (h : getCol df "level_id" = none) :
    applyRule lid k v df = .error .missingLevelId := by
  unfold applyRule
  rw [h]

theorem applyRule_present_ok {lid : Int} {k : String} {v : FieldRule} {df : Table}
    {lv col nc : List Cell} (hlv : getCol df "level_id" = some lv)
    (hc : getCol df k = some col)
    (htr : transformCol (maskOf lv lid) col v = .ok nc) :
    applyRule lid k v df = .ok (setCol df k nc) := by
  simp only [applyRule, hlv, hc, htr]

theorem applyRule_present_error {lid : Int} {k : String} {v : FieldRule} {df : Table}
    {lv col : List Cell} {e : EngineError} (hlv : getCol df "level_id" = some lv)
    (hc : getCol df k = some col)
    (htr : transformCol (maskOf lv lid) col v = .error e) :
    applyRule lid k v df = .error e := by
  simp only [applyRule, hlv, hc, htr]

theorem applyRule_absent_cond {lid : Int} {k : String} {v : FieldRule} {df : Table}
    {lv : List Cell} (hlv : getCol df "level_id" = some lv)
    (hc : getCol df k = none) (ht : condTruthy v.condition = true) :
    applyRule lid k v df = .error (.missingColumn k) := by
  simp only [applyRule, hlv, hc, ht]
  rfl

theorem applyRule_absent_uncond {lid : Int} {k : String} {v : FieldRule} {df : Table}
    {lv : List Cell} (hlv : getCol df "level_id" = some lv)
    (hc : getCol df k = none) (ht : condTruthy v.condition = false) :
    applyRule lid k v df = .ok (setCol df k (newColFor (maskOf lv lid) v.default_value)) := by
  simp only [applyRule, hlv, hc, ht]
  rfl

theorem applyRule_ok_shape {lid : Int} {k : String} {v : FieldRule} {df t' : Table}
    (h : applyRule lid k v df = .ok t') : ∃ nc, t' = setCol df k nc := by
  cases hlv : getCol df "level_id" with
  | none => rw [applyRule_no_levelid hlv] at h; exact absurd h (by simp)
  | some lv =>
      cases hc : getCol df k with
      | some col =>
          cases htr : transformCol (maskOf lv lid) col v with
          | error e => rw [applyRule_present_error hlv hc htr] at h; exact absurd h (by simp)
          | ok nc =>
              rw [applyRule_present_ok hlv hc htr] at h
              exact ⟨nc, (Except.ok.inj h).symm⟩
      | none =>
          cases ht : condTruthy v.condition with
          | true => rw [applyRule_absent_cond hlv hc ht] at h; exact absurd h (by simp)
          | false =>
              rw [applyRule_absent_uncond hlv hc ht] at h
              exact ⟨newColFor (maskOf lv lid) v.default_value, (Except.ok.inj h).symm⟩

theorem applyRule_ok_levelid {lid : Int} {k : String} {v : FieldRule} {df t' : Table}
    (hk : k ≠ "level_id") (h : applyRule lid k v df = .ok t') :
    getCol t' "level_id" = getCol df "level_id" := by
  obtain ⟨nc, rfl⟩ := applyRule_ok_shape h
  exact getCol_setCol_ne df (Ne.symm hk) nc

theorem applyRule_ok_other {lid : Int} {k : String} {v : FieldRule} {df t' : Table}
    (h : applyRule lid k v df = .ok t') {k0 : String} (hk0 : k0 ≠ k) :
    getCol t' k0 = getCol df k0 := by
  obtain ⟨nc, rfl⟩ := applyRule_ok_shape h
  exact getCol_setCol_ne df hk0 nc

theorem fixed_inversion {lid : Int} {k : String} {v : FieldRule} {df : Table}
    {lv : List Cell} (h : applyRule lid k v df = .ok df)
    (hlv : getCol df "level_id" = some lv) :
    ∃ col, getCol df k = some col ∧
      transformCol (maskOf lv lid) col v = .ok col := by
  cases hc : getCol df k with
  | some col =>
      cases htr : transformCol (maskOf lv lid) col v with
      | error e => rw [applyRule_present_error hlv hc htr] at h; exact absurd h (by simp)
      | ok nc =>
          rw [applyRule_present_ok hlv hc htr] at h
          have hset : setCol df k nc = df := Except.ok.inj h
          have hnc : getCol df k = some nc := by
            rw [← hset]
            exact getCol_setCol_self df k nc
          have hcol : col = nc := by
            rw [hc] at hnc
            exact Option.some.inj hnc
          subst hcol
          exact ⟨col, rfl, htr⟩
  | none =>
      cases ht : condTruthy v.condition with
      | true => rw [applyRule_absent_cond hlv hc ht] at h; exact absurd h (by simp)
      | false =>
          rw [applyRule_absent_uncond hlv hc ht] at h
          have hset := Except.ok.inj h
          have habs : df.cols.find? (fun p => p.1 == k) = none :=
            find?_none_of_getCol (by rw [hc]; simp)
          rw [setCol_of_absent habs] at hset
          have hlen : df.cols.length + 1 = df.cols.length := by
            have := congrArg (fun t : Table => t.cols.length) hset
            simpa using this
          exact absurd hlen (by simp)

/-! ### The pass as a flat fold over `(level_id, field, rule)` triples -/

theorem applyRules_cons_ok {r : Int × String × FieldRule}
    {rest : List (Int × String × FieldRule)} {df df1 : Table}
    (h : applyRule r.1 r.2.1 r.2.2 df = .ok df1) :
    applyRules (r :: rest) df = applyRules rest df1 := by
  simp only [applyRules, h]

theorem applyRules_cons_error {r : Int × String × FieldRule}
    {rest : List (Int × String × FieldRule)} {df : Table} {e : EngineError}
    (h : applyRule r.1 r.2.1 r.2.2 df = .error e) :
    applyRules (r :: rest) df = .error e := by
  simp only [applyRules, h]

theorem applyFields_eq_applyRules (lid : Int) :
    ∀ (fields : List (String × FieldRule)) (df : Table),
      applyFields lid fields df =
        applyRules (fields.map (fun kv => (lid, kv.1, kv.2))) df := by
  intro fields
  induction fields with
  | nil => intro df; rfl
  | cons kv rest ih =>
      intro df
      show (match applyRule lid kv.1 kv.2 df with
        | Except.error e => Except.error e
        | Except.ok df1 => applyFields lid rest df1) = _
      cases h : applyRule lid kv.1 kv.2 df with
      | error e =>
          rw [List.map_cons, applyRules_cons_error h]
      | ok df1 =>
          rw [List.map_cons, applyRules_cons_ok h]
          exact ih df1

theorem applyRules_append :
    ∀ (rs1 rs2 : List (Int × String × FieldRule)) (df : Table),
      applyRules (rs1 ++ rs2) df =
        match applyRules rs1 df with
        | .error e => .error e
        | .ok df1 => applyRules rs2 df1 := by
  intro rs1
  induction rs1 with
  | nil => intro rs2 df; rfl
  | cons r rest ih =>
      intro rs2 df
      cases h : applyRule r.1 r.2.1 r.2.2 df with
      | error e =>
          rw [List.cons_append, applyRules_cons_error h, applyRules_cons_error h]
      | ok df1 =>
          rw [List.cons_append, applyRules_cons_ok h, applyRules_cons_ok h]
          exact ih rs2 df1

theorem applyLevel_unknown {levelIds : List (String × Int)} {level : String}
    {fields : List (String × FieldRule)} {df : Table}
    (h : levelIds.lookup level = none) :
    applyLevel levelIds level fields df = .error (.unknownLevel level) := by
  unfold applyLevel
  rw [h]

theorem applyLevel_known {levelIds : List (String × Int)} {level : String}
    {fields : List (String × FieldRule)} {df : Table} {lid : Int}
    (h : levelIds.lookup level = some lid) :
    applyLevel levelIds level fields df = applyFields lid fields df := by
  unfold applyLevel
  rw [h]

theorem assign_cons_error {levelIds : List (String × Int)} {level : String}
    {fields : List (String × FieldRule)}
    {rest : List (String × List (String × FieldRule))} {df : Table} {e : EngineError}
    (h : applyLevel levelIds level fields df = .error e) :
    assign_defaults_to_il_inputs levelIds ((level, fields) :: rest) df = .error e := by
  simp only [assign_defaults_to_il_inputs, h]

theorem assign_cons_ok {levelIds : List (String × Int)} {level : String}
    {fields : List (String × FieldRule)}
    {rest : List (String × List (String × FieldRule))} {df df1 : Table}
    (h : applyLevel levelIds level fields df = .ok df1) :
    assign_defaults_to_il_inputs levelIds ((level, fields) :: rest) df =
      assign_defaults_to_il_inputs levelIds rest df1 := by
  simp only [assign_defaults_to_il_inputs, h]

theorem engine_ok_resolves {levelIds : List (String × Int)} :
    ∀ {profile : List (String × List (String × FieldRule))} {df t' : Table},
      assign_defaults_to_il_inputs levelIds profile df = .ok t' →
      ∀ p ∈ profile, (levelIds.lookup p.1).isSome = true := by
  intro profile
  induction profile with
  | nil => intro df t' _ p hp; cases hp
  | cons q rest ih =>
      intro df t' h p hp
      obtain ⟨level, fields⟩ := q
      cases hl : levelIds.lookup level with
      | none =>
          rw [assign_cons_error (applyLevel_unknown hl)] at h
          exact absurd h (by simp)
      | some lid =>
          cases happ : applyFields lid fields df with
          | error e =>
              rw [assign_cons_error (by rw [applyLevel_known hl]; exact happ)] at h
              exact absurd h (by simp)
          | ok df1 =>
              rw [assign_cons_ok (by rw [applyLevel_known hl]; exact happ)] at h
              cases hp with
              | head => rw [hl]; rfl
              | tail _ hmem => exact ih h p hmem

theorem engine_eq_flat {levelIds : List (String × Int)} :
    ∀ {profile : List (String × List (String × FieldRule))} {df : Table},
      (∀ p ∈ profile, (levelIds.lookup p.1).isSome = true) →
      assign_defaults_to_il_inputs levelIds profile df =
        applyRules (flatRules levelIds profile) df := by
  intro profile
  induction profile with
  | nil => intro df _; rfl
  | cons q rest ih =>
      intro df hres
      obtain ⟨level, fields⟩ := q
      obtain ⟨lid, hl⟩ := Option.isSome_iff_exists.mp (hres (level, fields) (by simp))
      have hflat : flatRules levelIds ((level, fields) :: rest) =
          fields.map (fun kv => (lid, kv.1, kv.2)) ++ flatRules levelIds rest := by
        unfold flatRules
        rw [List.flatMap_cons]
        congr 1
        apply List.map_congr_left
        intro kv _
        rw [hl]
        rfl
      rw [hflat, applyRules_append]
      cases happ : applyFields lid fields df with
      | error e =>
          rw [assign_cons_error (by rw [applyLevel_known hl]; exact happ)]
          rw [applyFields_eq_applyRules] at happ
          rw [happ]
      | ok df1 =>
          rw [assign_cons_ok (by rw [applyLevel_known hl]; exact happ)]
          rw [applyFields_eq_applyRules] at happ
          rw [happ]
          exact ih (fun p hp => hres p (List.mem_cons_of_mem _ hp))

/-! ### Stability of rule applications -/

theorem uncondAssign_get?_true (d : Lit) {mask : List Bool} {col : List Cell} {i : Nat}
    {c : Cell} (hm : mask.get? i = some true) (hc : col.get? i = some c) :
    (uncondAssign mask col d).get? i = some (some d) := by
  rw [uncondAssign_get?, hm, hc]
  rfl

theorem uncond_idem (mask : List Bool) (col : List Cell) (d : Lit) :
    uncondAssign mask (uncondAssign mask col d) d = uncondAssign mask col d := by
  apply uncondAssign_self
  · rw [uncondAssign_length]
    exact Nat.min_le_left _ _
  · intro i c hm hc
    obtain ⟨c0, hc0⟩ : ∃ c0, col.get? i = some c0 := by
      rw [uncondAssign_get?, hm] at hc
      cases hg : col.get? i with
      | none => rw [hg] at hc; cases hc
      | some x => exact ⟨x, rfl⟩
    have hthis := uncondAssign_get?_true d hm hc0
    rw [hc] at hthis
    exact Option.some.inj hthis

theorem uncond_newCol (mask : List Bool) (d : Lit) :
    uncondAssign mask (newColFor mask d) d = newColFor mask d := by
  apply uncondAssign_self
  · rw [newColFor_length]
  · intro i c hm hc
    rw [newColFor_get?, hm] at hc
    have : (some d : Cell) = c := Option.some.inj hc
    exact this.symm

theorem transformCol_ok_length {mask : List Bool} {col out : List Cell} {v : FieldRule}
    (h : transformCol mask col v = .ok out) :
    out.length = min mask.length col.length := by
  cases ht : condTruthy v.condition with
  | false =>
      rw [transformCol_uncond ht] at h
      have : uncondAssign mask col v.default_value = out := Except.ok.inj h
      rw [← this, uncondAssign_length]
  | true =>
      cases hp : parseCondition (v.condition.getD "") with
      | none => rw [transformCol_malformed ht hp] at h; exact absurd h (by simp)
      | some pr =>
          obtain ⟨op, l⟩ := pr
          rw [transformCol_cond ht hp] at h
          exact condAssign_ok_length h

theorem transformCol_get?_false {mask : List Bool} {col out : List Cell} {v : FieldRule}
    {i : Nat} (h : transformCol mask col v = .ok out)
    (hm : mask.get? i = some false) : out.get? i = col.get? i := by
  cases ht : condTruthy v.condition with
  | false =>
      rw [transformCol_uncond ht] at h
      have hout : uncondAssign mask col v.default_value = out := Except.ok.inj h
      rw [← hout, uncondAssign_get?, hm]
      cases col.get? i <;> rfl
  | true =>
      cases hp : parseCondition (v.condition.getD "") with
      | none => rw [transformCol_malformed ht hp] at h; exact absurd h (by simp)
      | some pr =>
          obtain ⟨op, l⟩ := pr
          rw [transformCol_cond ht hp] at h
          exact condAssign_get?_false h hm

theorem transformCol_stable {mask : List Bool} {col out : List Cell} {v : FieldRule}
    (h : transformCol mask col v = .ok out) (hd : defaultCompatible v = true) :
    transformCol mask out v = .ok out := by
  cases ht : condTruthy v.condition with
  | false =>
      rw [transformCol_uncond ht] at h ⊢
      have hout : uncondAssign mask col v.default_value = out := Except.ok.inj h
      rw [← hout, uncond_idem]
  | true =>
      cases hp : parseCondition (v.condition.getD "") with
      | none => rw [transformCol_malformed ht hp] at h; exact absurd h (by simp)
      | some pr =>
          obtain ⟨op, l⟩ := pr
          have hdok : cmpCell op (some v.default_value) l ≠ none := by
            unfold defaultCompatible at hd
            rw [ht, if_pos rfl, hp] at hd
            simpa using hd
          rw [transformCol_cond ht hp] at h ⊢
          exact condAssign_stable h hdok

theorem transformCol_fix_of_agree {mask : List Bool} {col nc : List Cell} {v : FieldRule}
    (htr : transformCol mask col v = .ok col) (hlen : nc.length ≤ mask.length)
    (hagree : ∀ i, mask.get? i = some true → nc.get? i = col.get? i) :
    transformCol mask nc v = .ok nc := by
  cases ht : condTruthy v.condition with
  | false =>
      rw [transformCol_uncond ht] at htr ⊢
      have hfixcol : uncondAssign mask col v.default_value = col := Except.ok.inj htr
      have hself : uncondAssign mask nc v.default_value = nc := by
        refine uncondAssign_self v.default_value mask nc hlen ?_
        intro i c hm hc
        have hcc : col.get? i = some c := by rw [← hagree i hm]; exact hc
        have hthis := uncondAssign_get?_true v.default_value hm hcc
        rw [hfixcol, hcc] at hthis
        exact Option.some.inj hthis
      rw [hself]
  | true =>
      cases hp : parseCondition (v.condition.getD "") with
      | none => rw [transformCol_malformed ht hp] at htr; exact absurd htr (by simp)
      | some pr =>
          obtain ⟨op, l⟩ := pr
          rw [transformCol_cond ht hp] at htr ⊢
          apply condAssign_ok_self _ _ hlen
          intro i c hm hc
          have hcc : col.get? i = some c := by rw [← hagree i hm]; exact hc
          obtain ⟨b, hb, hout⟩ := condAssign_get?_true htr hm hcc
          rw [hcc] at hout
          exact ⟨b, hb, (Option.some.inj hout).symm⟩

theorem maskOf_disjoint {lv : List Cell} {lid lid2 : Int} (h : lid ≠ lid2) {i : Nat}
    (hm : (maskOf lv lid).get? i = some true) :
    (maskOf lv lid2).get? i = some false := by
  rw [maskOf_get?] at hm ⊢
  cases hc : lv.get? i with
  | none => rw [hc] at hm; cases hm
  | some c =>
      rw [hc] at hm
      simp only [Option.map_some'] at hm ⊢
      have hceq : (c == some (Lit.num lid)) = true := Option.some.inj hm
      have hcel : c = some (Lit.num lid) := by simpa using hceq
      subst hcel
      have hbe : ((some (Lit.num lid) : Cell) == some (Lit.num lid2)) = false := by
        apply beq_eq_false_iff_ne.mpr
        intro hh
        have h2 : Lit.num lid = Lit.num lid2 := Option.some.inj hh
        exact h (Lit.num.inj h2)
      rw [hbe]

theorem applyRule_self_stable {lid : Int} {k : String} {v : FieldRule} {t t1 : Table}
    (hk : k ≠ "level_id") (hd : defaultCompatible v = true)
    (h : applyRule lid k v t = .ok t1) : applyRule lid k v t1 = .ok t1 := by
  cases hlv : getCol t "level_id" with
  | none => rw [applyRule_no_levelid hlv] at h; exact absurd h (by simp)
  | some lv =>
      have hlv1 : getCol t1 "level_id" = some lv := by
        rw [applyRule_ok_levelid hk h, hlv]
      cases hc : getCol t k with
      | some col =>
          cases htr : transformCol (maskOf lv lid) col v with
          | error e =>
              rw [applyRule_present_error hlv hc htr] at h
              exact absurd h (by simp)
          | ok nc =>
              rw [applyRule_present_ok hlv hc htr] at h
              have ht1 : t1 = setCol t k nc := (Except.ok.inj h).symm
              have hc1 : getCol t1 k = some nc := by
                rw [ht1]; exact getCol_setCol_self t k nc
              have htr1 : transformCol (maskOf lv lid) nc v = .ok nc :=
                transformCol_stable htr hd
              rw [applyRule_present_ok hlv1 hc1 htr1, ht1, setCol_setCol]
      | none =>
          cases htc : condTruthy v.condition with
          | true =>
              rw [applyRule_absent_cond hlv hc htc] at h
              exact absurd h (by simp)
          | false =>
              rw [applyRule_absent_uncond hlv hc htc] at h
              have ht1 : t1 = setCol t k (newColFor (maskOf lv lid) v.default_value) :=
                (Except.ok.inj h).symm
              have hc1 : getCol t1 k = some (newColFor (maskOf lv lid) v.default_value) := by
                rw [ht1]; exact getCol_setCol_self t k _
              have htr1 : transformCol (maskOf lv lid)
                  (newColFor (maskOf lv lid) v.default_value) v =
                  .ok (newColFor (maskOf lv lid) v.default_value) := by
                rw [transformCol_uncond htc, uncond_newCol]
              rw [applyRule_present_ok hlv1 hc1 htr1, ht1, setCol_setCol]

theorem Fixed_preserved {r r2 : Int × String × FieldRule} {t t2 : Table}
    (hfix : Fixed r t) (h2 : applyRule r2.1 r2.2.1 r2.2.2 t = .ok t2)
    (hcompat : Compat r r2) (hk : r.2.1 ≠ "level_id") (hk2 : r2.2.1 ≠ "level_id") :
    Fixed r t2 := by
  obtain ⟨lid, k, v⟩ := r
  obtain ⟨lid2, k2, v2⟩ := r2
  simp only [Fixed] at hfix ⊢
  simp only at h2 hk hk2
  cases hlv : getCol t "level_id" with
  | none => rw [applyRule_no_levelid hlv] at hfix; exact absurd hfix (by simp)
  | some lv =>
      have hlv2 : getCol t2 "level_id" = some lv := by
        rw [applyRule_ok_levelid hk2 h2, hlv]
      obtain ⟨col, hc, htr⟩ := fixed_inversion hfix hlv
      by_cases hkk : k2 = k
      · subst hkk
        have hlid : lid ≠ lid2 := by
          cases hcompat with
          | inl h => exact h
          | inr h => exact absurd rfl h
        cases htr2 : transformCol (maskOf lv lid2) col v2 with
        | error e =>
            rw [applyRule_present_error hlv hc htr2] at h2
            exact absurd h2 (by simp)
        | ok nc2 =>
            rw [applyRule_present_ok hlv hc htr2] at h2
            have ht2 : t2 = setCol t k2 nc2 := (Except.ok.inj h2).symm
            have hc2 : getCol t2 k2 = some nc2 := by
              rw [ht2]; exact getCol_setCol_self t k2 nc2
            have hcollen : col.length ≤ lv.length := by
              have := transformCol_ok_length htr
              rw [maskOf_length] at this
              have h1 : col.length ≤ min lv.length col.length := Nat.le_of_eq this
              exact Nat.le_trans h1 (Nat.min_le_left _ _)
            have hnc2len : nc2.length ≤ (maskOf lv lid).length := by
              have := transformCol_ok_length htr2
              rw [maskOf_length] at this
              rw [maskOf_length, this]
              exact Nat.le_trans (Nat.min_le_right _ _) hcollen
            have hagree : ∀ i, (maskOf lv lid).get? i = some true →
                nc2.get? i = col.get? i := by
              intro i hm
              exact transformCol_get?_false htr2 (maskOf_disjoint hlid hm)
            have hkey : transformCol (maskOf lv lid) nc2 v = .ok nc2 :=
              transformCol_fix_of_agree htr hnc2len hagree
            rw [applyRule_present_ok hlv2 hc2 hkey, ht2, setCol_setCol]
      · have hc2 : getCol t2 k = some col := by
          rw [applyRule_ok_other h2 (fun hh => hkk hh.symm)]
          exact hc
        have hset : setCol t k col = t := by
          have happ : applyRule lid k v t = .ok (setCol t k col) :=
            applyRule_present_ok hlv hc htr
          rw [happ] at hfix
          exact Except.ok.inj hfix
        obtain ⟨nc2, ht2⟩ := applyRule_ok_shape h2
        have hkpres : (getCol t k).isSome = true := by rw [hc]; rfl
        rw [applyRule_present_ok hlv2 hc2 htr, ht2,
          ← setCol_comm t (fun hh => hkk hh.symm) hkpres col nc2]
        rw [hset]

theorem Fixed_chain {r : Int × String × FieldRule} :
    ∀ {rs : List (Int × String × FieldRule)} {t t' : Table},
      Fixed r t → applyRules rs t = .ok t' →
      (∀ r2 ∈ rs, Compat r r2) → r.2.1 ≠ "level_id" →
      (∀ r2 ∈ rs, r2.2.1 ≠ "level_id") → Fixed r t' := by
  intro rs
  induction rs with
  | nil =>
      intro t t' hfix h _ _ _
      have : t = t' := by
        have hh : (Except.ok t : Except EngineError Table) = .ok t' := h
        exact Except.ok.inj hh
      rw [← this]
      exact hfix
  | cons r0 rest ih =>
      intro t t' hfix h hcomp hk hks
      cases h0 : applyRule r0.1 r0.2.1 r0.2.2 t with
      | error e => rw [applyRules_cons_error h0] at h; exact absurd h (by simp)
      | ok t0 =>
          rw [applyRules_cons_ok h0] at h
          have hfix0 : Fixed r t0 :=
            Fixed_preserved hfix h0 (hcomp r0 (by simp)) hk (hks r0 (by simp))
          exact ih hfix0 h (fun r2 h2 => hcomp r2 (List.mem_cons_of_mem _ h2)) hk
            (fun r2 h2 => hks r2 (List.mem_cons_of_mem _ h2))

theorem rules_fixed :
    ∀ {rs : List (Int × String × FieldRule)} {t t' : Table},
      applyRules rs t = .ok t' → List.Pairwise Compat rs →
      (∀ r ∈ rs, r.2.1 ≠ "level_id") →
      (∀ r ∈ rs, defaultCompatible r.2.2 = true) →
      ∀ r ∈ rs, Fixed r t' := by
  intro rs
  induction rs with
  | nil => intro t t' _ _ _ _ r hr; cases hr
  | cons r0 rest ih =>
      intro t t' h hpair hks hd r hr
      cases h0 : applyRule r0.1 r0.2.1 r0.2.2 t with
      | error e => rw [applyRules_cons_error h0] at h; exact absurd h (by simp)
      | ok t0 =>
          rw [applyRules_cons_ok h0] at h
          cases hr with
          | head =>
              have hfix0 : Fixed r0 t0 :=
                applyRule_self_stable (hks r0 (by simp)) (hd r0 (by simp)) h0
              exact Fixed_chain hfix0 h (List.pairwise_cons.mp hpair).1
                (hks r0 (by simp))
                (fun r2 h2 => hks r2 (List.mem_cons_of_mem _ h2))
          | tail _ hmem =>
              exact ih h (List.pairwise_cons.mp hpair).2
                (fun r2 h2 => hks r2 (List.mem_cons_of_mem _ h2))
                (fun r2 h2 => hd r2 (List.mem_cons_of_mem _ h2)) r hmem

theorem rules_idem :
    ∀ {rs : List (Int × String × FieldRule)} {t' : Table},
      (∀ r ∈ rs, Fixed r t') → applyRules rs t' = .ok t' := by
  intro rs
  induction rs with
  | nil => intro t' _; rfl
  | cons r0 rest ih =>
      intro t' hfix
      rw [applyRules_cons_ok (hfix r0 (by simp))]
      exact ih (fun r hr => hfix r (List.mem_cons_of_mem _ hr))

theorem mem_flatRules {levelIds : List (String × Int)}
    {profile : List (String × List (String × FieldRule))}
    {r : Int × String × FieldRule} (h : r ∈ flatRules levelIds profile) :
    ∃ p, p ∈ profile ∧ ∃ kv, kv ∈ p.2 ∧
      r = ((levelIds.lookup p.1).getD 0, kv.1, kv.2) := by
  unfold flatRules at h
  rw [List.mem_flatMap] at h
  obtain ⟨p, hp, hr⟩ := h
  rw [List.mem_map] at hr
  obtain ⟨kv, hkv, he⟩ := hr
  exact ⟨p, hp, kv, hkv, he.symm⟩

theorem flat_pairwise {levelIds : List (String × Int)} :
    ∀ {profile : List (String × List (String × FieldRule))},
      (∀ p ∈ profile, (levelIds.lookup p.1).isSome = true) →
      (profile.map (fun p => levelIds.lookup p.1)).Nodup →
      (∀ p ∈ profile, (p.2.map Prod.fst).Nodup) →
      List.Pairwise Compat (flatRules levelIds profile) := by
  intro profile
  induction profile with
  | nil => intro _ _ _; exact List.Pairwise.nil
  | cons p rest ih =>
      intro hres hnd hfields
      show List.Pairwise Compat
        (p.2.map (fun kv => ((levelIds.lookup p.1).getD 0, kv.1, kv.2)) ++
          flatRules levelIds rest)
      rw [List.pairwise_append]
      refine ⟨?_, ?_, ?_⟩
      · rw [List.pairwise_map]
        have hnd2 : (p.2.map Prod.fst).Nodup := hfields p (by simp)
        have hpf : List.Pairwise (fun a b : String × FieldRule => a.1 ≠ b.1) p.2 :=
          List.pairwise_map.mp hnd2
        exact hpf.imp (fun h => Or.inr h)
      · exact ih (fun q hq => hres q (List.mem_cons_of_mem _ hq))
          (by rw [List.map_cons, List.nodup_cons] at hnd; exact hnd.2)
          (fun q hq => hfields q (List.mem_cons_of_mem _ hq))
      · intro a ha b hb
        rw [List.mem_map] at ha
        obtain ⟨kv, _, hae⟩ := ha
        obtain ⟨q, hq, kv2, _, hbe⟩ := mem_flatRules hb
        obtain ⟨lidp, hlp⟩ :=
          Option.isSome_iff_exists.mp (hres p (by simp))
        obtain ⟨lidq, hlq⟩ :=
          Option.isSome_iff_exists.mp (hres q (List.mem_cons_of_mem _ hq))
        have hlookup_ne : levelIds.lookup p.1 ≠ levelIds.lookup q.1 := by
          rw [List.map_cons, List.nodup_cons] at hnd
          intro hh
          exact hnd.1 (hh ▸ List.mem_map_of_mem (fun z => levelIds.lookup z.1) hq)
        left
        rw [← hae, hbe]
        show (levelIds.lookup p.1).getD 0 ≠ (levelIds.lookup q.1).getD 0
        rw [hlp, hlq]
        intro hh
        apply hlookup_ne
        rw [hlp, hlq]
        simpa using hh

/-- Claim C6 is false as stated: when two profile levels resolve to the same
level id and guard the same field, the second pass can overwrite what the
first pass produced.  Here levels `L1` and `L2` both resolve to id 1, `L1`
defaults `X` to 7 under `> 0` and `L2` defaults `X` to -1 under `> 5`; on a
row with `X = 3` one pass ends with `X = -1` but two passes end with `X = 7`. -/
theorem C6_counterexample :
    applyTwice [("L1", 1), ("L2", 1)]
      [("L1", [("X", ⟨Lit.num 7, some "> 0"⟩)]),
       ("L2", [("X", ⟨Lit.num (-1), some "> 5"⟩)])]
      ⟨[("level_id", [some (.num 1)]), ("X", [some (.num 3)])]⟩ ≠
    assign_defaults_to_il_inputs [("L1", 1), ("L2", 1)]
      [("L1", [("X", ⟨Lit.num 7, some "> 0"⟩)]),
       ("L2", [("X", ⟨Lit.num (-1), some "> 5"⟩)])]
      ⟨[("level_id", [some (.num 1)]), ("X", [some (.num 3)])]⟩ := by
  decide

/-- Claim C6, amended.  Applying the engine twice in succession with the same
rule profile and level-id mapping yields the same outcome as applying it once,
provided (as the counterexample forces) distinct profile levels resolve to
distinct level ids, each level's field names are unique, no rule targets the
`level_id` column itself, and each conditional rule's default value is
type-compatible with its own condition literal (the specification's "defaults
are assumed valid"). -/
theorem C6_theorem (levelIds : List (String × Int))
    (profile : List (String × List (String × FieldRule))) (df : Table)
    (hnd : (profile.map (fun p => levelIds.lookup p.1)).Nodup)
    (hfields : ∀ p ∈ profile, (p.2.map Prod.fst).Nodup)
    (hlev : ∀ p ∈ profile, ∀ kv ∈ p.2, kv.1 ≠ "level_id")
    (hdef : ∀ p ∈ profile, ∀ kv ∈ p.2, defaultCompatible kv.2 = true) :
    applyTwice levelIds profile df = assign_defaults_to_il_inputs levelIds profile df := by
  cases h : assign_defaults_to_il_inputs levelIds profile df with
  | error e => unfold applyTwice; rw [h]
  | ok t' =>
      unfold applyTwice
      rw [h]
      show assign_defaults_to_il_inputs levelIds profile t' = Except.ok t'
      have hres := engine_ok_resolves h
      rw [engine_eq_flat hres] at h
      rw [engine_eq_flat hres]
      have hks : ∀ r ∈ flatRules levelIds profile, r.2.1 ≠ "level_id" := by
        intro r hr
        obtain ⟨p, hp, kv, hkv, he⟩ := mem_flatRules hr
        rw [he]
        exact hlev p hp kv hkv
      have hd : ∀ r ∈ flatRules levelIds profile, defaultCompatible r.2.2 = true := by
        intro r hr
        obtain ⟨p, hp, kv, hkv, he⟩ := mem_flatRules hr
        rw [he]
        exact hdef p hp kv hkv
      have hpair := flat_pairwise hres hnd hfields
      exact rules_idem (rules_fixed h hpair hks hd)

/-- Concrete instantiation of the amended claim C6: a two-level profile with
distinct ids, one conditional and one unconditional rule, on a two-row table. -/
theorem C6_witness :
    applyTwice [("site coverage", 1), ("policy", 2)]
      [("site coverage", [("deductible1", ⟨Lit.num 0, some "> 0"⟩)]),
       ("policy", [("limit1", ⟨Lit.num 5, none⟩)])]
      ⟨[("level_id", [some (.num 1), some (.num 2)]),
        ("deductible1", [none, some (.num 3)]),
        ("limit1", [some (.num 9), none])]⟩ =
    assign_defaults_to_il_inputs [("site coverage", 1), ("policy", 2)]
      [("site coverage", [("deductible1", ⟨Lit.num 0, some "> 0"⟩)]),
       ("policy", [("limit1", ⟨Lit.num 5, none⟩)])]
      ⟨[("level_id", [some (.num 1), some (.num 2)]),
        ("deductible1", [none, some (.num 3)]),
        ("limit1", [some (.num 9), none])]⟩ :=
  C6_theorem _ _ _ (by decide) (by decide) (by decide) (by decide)

/-! ### Cell-level consequences -/

theorem cellAt_setCol_self (t : Table) (k : String) (c : List Cell) (i : Nat) :
    cellAt (setCol t k c) k i = c.get? i := by
  unfold cellAt
  rw [getCol_setCol_self]
  rfl

theorem cellAt_setCol_ne (t : Table) {k k0 : String} (h : k0 ≠ k) (c : List Cell)
    (i : Nat) : cellAt (setCol t k c) k0 i = cellAt t k0 i := by
  unfold cellAt
  rw [getCol_setCol_ne t h c]

theorem maskOf_get?_true {lv : List Cell} {lid : Int} {i : Nat}
    (h : lv.get? i = some (some (.num lid))) :
    (maskOf lv lid).get? i = some true := by
  rw [maskOf_get?, h]
  simp

theorem maskOf_true_iff {lv : List Cell} {lid : Int} {i : Nat} :
    (maskOf lv lid).get? i = some true ↔ lv.get? i = some (some (.num lid)) := by
  constructor
  · intro h
    rw [maskOf_get?] at h
    cases hc : lv.get? i with
    | none => rw [hc] at h; cases h
    | some c =>
        rw [hc] at h
        simp only [Option.map_some'] at h
        have hceq : (c == some (Lit.num lid)) = true := Option.some.inj h
        have hcel : c = some (Lit.num lid) := by simpa using hceq
        rw [hcel]
  · exact maskOf_get?_true

theorem maskOf_get?_of_ne {lv : List Cell} {lid : Int} {i : Nat} {c : Cell}
    (h : lv.get? i = some c) (hc : c ≠ some (.num lid)) :
    (maskOf lv lid).get? i = some false := by
  rw [maskOf_get?, h]
  simp only [Option.map_some']
  have : (c == some (Lit.num lid)) = false := by
    apply beq_eq_false_iff_ne.mpr
    exact hc
  rw [this]

theorem cmpCell_none (op : CmpOp) (l : Lit) :
    cmpCell op none l = some (decide (op = CmpOp.ne)) := by
  cases op <;> rfl

theorem transformCol_get?_none {mask : List Bool} {col out : List Cell} {v : FieldRule}
    {i : Nat} (h : transformCol mask col v = .ok out) (hc : col.get? i = none) :
    out.get? i = none := by
  apply List.get?_eq_none.mpr
  have hlen := transformCol_ok_length h
  have hic : col.length ≤ i := List.get?_eq_none.mp hc
  rw [hlen]
  exact Nat.le_trans (Nat.min_le_right _ _) hic

theorem transformCol_get?_none_mask {mask : List Bool} {col out : List Cell}
    {v : FieldRule} {i : Nat} (h : transformCol mask col v = .ok out)
    (hm : mask.get? i = none) : out.get? i = none := by
  apply List.get?_eq_none.mpr
  have hlen := transformCol_ok_length h
  have him : mask.length ≤ i := List.get?_eq_none.mp hm
  rw [hlen]
  exact Nat.le_trans (Nat.min_le_left _ _) him

theorem transformCol_get?_true_sem {mask : List Bool} {col out : List Cell}
    {v : FieldRule} {i : Nat} {c : Cell} (h : transformCol mask col v = .ok out)
    (hm : mask.get? i = some true) (hcg : col.get? i = some c) :
    out.get? i = some (ruleCellSem v c) := by
  cases ht : condTruthy v.condition with
  | false =>
      rw [transformCol_uncond ht] at h
      have hout : uncondAssign mask col v.default_value = out := Except.ok.inj h
      rw [← hout, uncondAssign_get?_true v.default_value hm hcg]
      unfold ruleCellSem
      rw [ht]
      rfl
  | true =>
      cases hp : parseCondition (v.condition.getD "") with
      | none => rw [transformCol_malformed ht hp] at h; exact absurd h (by simp)
      | some pr =>
          obtain ⟨op, l⟩ := pr
          rw [transformCol_cond ht hp] at h
          obtain ⟨b, hb, hout⟩ := condAssign_get?_true h hm hcg
          rw [hout]
          unfold ruleCellSem
          rw [ht, if_pos rfl, hp]
          show some (if b = true then c else some v.default_value) =
            some (match cmpCell op c l with
              | some true => c
              | _ => some v.default_value)
          rw [hb]
          cases b with
          | true => rfl
          | false => rfl

theorem transformCol_ok_of_agree {mask : List Bool} {col nc nc2 : List Cell}
    {v : FieldRule} (htr : transformCol mask col v = .ok nc2)
    (hagree : ∀ i, mask.get? i = some true → nc.get? i = col.get? i) :
    ∃ out, transformCol mask nc v = .ok out := by
  cases ht : condTruthy v.condition with
  | false =>
      exact ⟨uncondAssign mask nc v.default_value, transformCol_uncond ht⟩
  | true =>
      cases hp : parseCondition (v.condition.getD "") with
      | none => rw [transformCol_malformed ht hp] at htr; exact absurd htr (by simp)
      | some pr =>
          obtain ⟨op, l⟩ := pr
          rw [transformCol_cond ht hp] at htr
          have hdef : ∀ i c, mask.get? i = some true → nc.get? i = some c →
              cmpCell op c l ≠ none := by
            intro i c hm hcg
            have hcc : col.get? i = some c := by rw [← hagree i hm]; exact hcg
            obtain ⟨b, hb, _⟩ := condAssign_get?_true htr hm hcc
            rw [hb]
            simp
          obtain ⟨out, hout⟩ := condAssign_ok_of_defined mask nc hdef
          exact ⟨out, by rw [transformCol_cond ht hp]; exact hout⟩

theorem applyRule_frame {lid : Int} {k : String} {v : FieldRule} {t t1 : Table}
    {lv col : List Cell} (hlv : getCol t "level_id" = some lv)
    (hc : getCol t k = some col) (hlen : col.length ≤ lv.length)
    (h : applyRule lid k v t = .ok t1) {i : Nat}
    (hout : lv.get? i ≠ some (some (.num lid))) (k0 : String) :
    cellAt t1 k0 i = cellAt t k0 i := by
  by_cases hkk : k0 = k
  · subst hkk
    cases htr : transformCol (maskOf lv lid) col v with
    | error e => rw [applyRule_present_error hlv hc htr] at h; exact absurd h (by simp)
    | ok nc =>
        rw [applyRule_present_ok hlv hc htr] at h
        have ht1 : t1 = setCol t k0 nc := (Except.ok.inj h).symm
        rw [ht1, cellAt_setCol_self]
        show nc.get? i = cellAt t k0 i
        have hcell : cellAt t k0 i = col.get? i := by unfold cellAt; rw [hc]; rfl
        rw [hcell]
        cases hm : (maskOf lv lid).get? i with
        | none =>
            have hlvnone : lv.get? i = none := by
              rw [maskOf_get?] at hm
              cases hgl : lv.get? i with
              | none => rfl
              | some c => rw [hgl] at hm; cases hm
            have hi : lv.length ≤ i := List.get?_eq_none.mp hlvnone
            have hcol_none : col.get? i = none :=
              List.get?_eq_none.mpr (Nat.le_trans hlen hi)
            rw [hcol_none]
            exact transformCol_get?_none htr hcol_none
        | some b =>
            cases b with
            | true => exact absurd (maskOf_true_iff.mp hm) hout
            | false => exact transformCol_get?_false htr hm
  · obtain ⟨nc, ht1⟩ := applyRule_ok_shape h
    rw [ht1, cellAt_setCol_ne t hkk nc i]

theorem applyRule_uncond_scope {lid : Int} {k : String} {v : FieldRule} {df : Table}
    {lv : List Cell} (hlv : getCol df "level_id" = some lv)
    (ht : condTruthy v.condition = false)
    (hlen : ((getCol df k).getD lv).length = lv.length) :
    ∃ df1, applyRule lid k v df = .ok df1 ∧
      ∀ i, lv.get? i = some (some (.num lid)) →
        cellAt df1 k i = some (some v.default_value) := by
  cases hc : getCol df k with
  | some col =>
      have hcl : col.length = lv.length := by rw [hc] at hlen; simpa using hlen
      have htr : transformCol (maskOf lv lid) col v =
          .ok (uncondAssign (maskOf lv lid) col v.default_value) := transformCol_uncond ht
      refine ⟨_, applyRule_present_ok hlv hc htr, ?_⟩
      intro i hi
      rw [cellAt_setCol_self]
      have hm := maskOf_get?_true hi
      have hilt : i < lv.length := by
        by_contra hh
        rw [List.get?_eq_none.mpr (Nat.le_of_not_lt hh)] at hi
        cases hi
      obtain ⟨c0, hc0⟩ : ∃ c0, col.get? i = some c0 := by
        cases hg : col.get? i with
        | none =>
            have hgl := List.get?_eq_none.mp hg
            rw [hcl] at hgl
            exact absurd hilt (Nat.not_lt_of_le hgl)
        | some x => exact ⟨x, rfl⟩
      exact uncondAssign_get?_true v.default_value hm hc0
  | none =>
      refine ⟨_, applyRule_absent_uncond hlv hc ht, ?_⟩
      intro i hi
      rw [cellAt_setCol_self, newColFor_get?, maskOf_get?_true hi]
      rfl

/-- Claim C2.  A rule with no condition sets its field to the default value on
every row of the level's scope, regardless of the prior value (null or not);
in the embedding the rectangularity of the dataframe is the hypothesis that
the field column, when present, has the length of the `level_id` column. -/
theorem C2_theorem (lid : Int) (k : String) (d : Lit) (df : Table) (lv : List Cell)
    (hlv : getCol df "level_id" = some lv)
    (hlen : ((getCol df k).getD lv).length = lv.length) :
    ∃ df1, applyRule lid k ⟨d, none⟩ df = .ok df1 ∧
      ∀ i, lv.get? i = some (some (.num lid)) → cellAt df1 k i = some (some d) :=
  applyRule_uncond_scope hlv rfl hlen

/-- Concrete instantiation of claim C2: an unconditional default overwrites
both a null and an existing non-null value in scope. -/
theorem C2_witness :
    ∃ df1, applyRule 1 "deductible1" ⟨Lit.num 5, none⟩
        ⟨[("level_id", [some (.num 1), some (.num 1), some (.num 2)]),
          ("deductible1", [none, some (.num 100), some (.num 7)])]⟩ = .ok df1 ∧
      ∀ i, ([some (.num 1), some (.num 1), some (.num 2)] : List Cell).get? i =
          some (some (.num 1)) →
        cellAt df1 "deductible1" i = some (some (Lit.num 5)) :=
  C2_theorem 1 "deductible1" (Lit.num 5) _ _ (by decide) (by decide)

/-- Claim C10.  A rule whose condition key holds the empty string is treated
exactly like a condition-less rule, because the source tests the condition
with Python truthiness (`if v.get('condition')`): the field is assigned
unconditionally on the level's scope, with no guard evaluation and no
malformed-condition failure. -/
theorem C10_theorem (lid : Int) (k : String) (d : Lit) (df : Table) (lv : List Cell)
    (hlv : getCol df "level_id" = some lv)
    (hlen : ((getCol df k).getD lv).length = lv.length) :
    applyRule lid k ⟨d, some ""⟩ df = applyRule lid k ⟨d, none⟩ df ∧
    ∃ df1, applyRule lid k ⟨d, some ""⟩ df = .ok df1 ∧
      ∀ i, lv.get? i = some (some (.num lid)) → cellAt df1 k i = some (some d) := by
  have ht0 : condTruthy (some "") = false := by decide
  have htn : condTruthy none = false := rfl
  have heq : applyRule lid k ⟨d, some ""⟩ df = applyRule lid k ⟨d, none⟩ df := by
    cases hc : getCol df k with
    | some col =>
        have e1 : applyRule lid k ⟨d, some ""⟩ df =
            .ok (setCol df k (uncondAssign (maskOf lv lid) col d)) :=
          applyRule_present_ok hlv hc (transformCol_uncond ht0)
        have e2 : applyRule lid k ⟨d, none⟩ df =
            .ok (setCol df k (uncondAssign (maskOf lv lid) col d)) :=
          applyRule_present_ok hlv hc (transformCol_uncond htn)
        rw [e1, e2]
    | none =>
        have e1 : applyRule lid k ⟨d, some ""⟩ df =
            .ok (setCol df k (newColFor (maskOf lv lid) d)) :=
          applyRule_absent_uncond hlv hc ht0
        have e2 : applyRule lid k ⟨d, none⟩ df =
            .ok (setCol df k (newColFor (maskOf lv lid) d)) :=
          applyRule_absent_uncond hlv hc htn
        rw [e1, e2]
  refine ⟨heq, ?_⟩
  rw [heq]
  exact applyRule_uncond_scope hlv rfl hlen

/-- Concrete instantiation of claim C10: the empty-string condition behaves as
no condition at all and the guard `""` is never parsed. -/
theorem C10_witness :
    applyRule 3 "limit1" ⟨Lit.num 9, some ""⟩
        ⟨[("level_id", [some (.num 3)]), ("limit1", [some (.num 2)])]⟩ =
      applyRule 3 "limit1" ⟨Lit.num 9, none⟩
        ⟨[("level_id", [some (.num 3)]), ("limit1", [some (.num 2)])]⟩ ∧
    ∃ df1, applyRule 3 "limit1" ⟨Lit.num 9, some ""⟩
        ⟨[("level_id", [some (.num 3)]), ("limit1", [some (.num 2)])]⟩ = .ok df1 ∧
      ∀ i, ([some (.num 3)] : List Cell).get? i = some (some (.num 3)) →
        cellAt df1 "limit1" i = some (some (Lit.num 9)) :=
  C10_theorem 3 "limit1" (Lit.num 9) _ _ (by decide) (by decide)

/-- Claim C1 is false as stated on the null clause: under the `!=` operator a
pandas comparison of NaN against the literal is `True`, so a null cell
"conforms" and is kept instead of being replaced by the default.  With rule
`{default 0, condition "!= 7"}` on a single in-scope row whose value is null,
the pass succeeds and leaves the cell null rather than setting it to 0. -/
theorem C1_counterexample :
    assign_defaults_to_il_inputs [("site coverage", 1)]
      [("site coverage", [("deductible1", ⟨Lit.num 0, some "!= 7"⟩)])]
      ⟨[("level_id", [some (.num 1)]), ("deductible1", [none])]⟩ =
      .ok ⟨[("level_id", [some (.num 1)]), ("deductible1", [none])]⟩ ∧
    cellAt ⟨[("level_id", [some (.num 1)]), ("deductible1", [none])]⟩ "deductible1" 0 ≠
      some (some (Lit.num 0)) := by
  constructor
  · decide
  · decide

/-- Claim C1, amended.  For a successful conditional rule on a present column:
an in-scope row keeps its value exactly when the comparison holds and receives
the default when it does not; an in-scope null row is defaulted under every
operator except `!=`, under which (as the counterexample forces) the pandas
NaN-comparison is `True` and the null is kept; out-of-scope rows and other
columns are untouched by the rule. -/
theorem C1_theorem (lid : Int) (k : String) (d : Lit) (c : String) (op : CmpOp)
    (l : Lit) (df : Table) (lv col : List Cell) (t1 : Table)
    (hpar : parseCondition c = some (op, l))
    (hlv : getCol df "level_id" = some lv)
    (hcol : getCol df k = some col)
    (hlen : col.length ≤ lv.length)
    (h : applyRule lid k ⟨d, some c⟩ df = .ok t1) :
    (∀ i c0 b, lv.get? i = some (some (.num lid)) → col.get? i = some c0 →
      cmpCell op c0 l = some b → cellAt t1 k i = some (if b then c0 else some d)) ∧
    (∀ i, lv.get? i = some (some (.num lid)) → col.get? i = some none →
      cellAt t1 k i = some (if op = CmpOp.ne then none else some d)) ∧
    (∀ i, lv.get? i ≠ some (some (.num lid)) → cellAt t1 k i = cellAt df k i) ∧
    (∀ k0, k0 ≠ k → getCol t1 k0 = getCol df k0) := by
  have ht : condTruthy (⟨d, some c⟩ : FieldRule).condition = true := by
    show (c != "") = true
    rw [bne_iff_ne]
    intro hc0
    rw [hc0] at hpar
    cases hpar
  cases htr : transformCol (maskOf lv lid) col ⟨d, some c⟩ with
  | error e => rw [applyRule_present_error hlv hcol htr] at h; exact absurd h (by simp)
  | ok nc =>
      rw [applyRule_present_ok hlv hcol htr] at h
      have ht1 : t1 = setCol df k nc := (Except.ok.inj h).symm
      have hca : transformCol (maskOf lv lid) col ⟨d, some c⟩ =
          condAssign (maskOf lv lid) col op l d := transformCol_cond ht hpar
      rw [hca] at htr
      refine ⟨?_, ?_, ?_, ?_⟩
      · intro i c0 b hi hc0 hcmp
        rw [ht1, cellAt_setCol_self]
        obtain ⟨b2, hb2, hout⟩ := condAssign_get?_true htr (maskOf_get?_true hi) hc0
        rw [hcmp] at hb2
        have hbb : b = b2 := Option.some.inj hb2
        rw [hout, ← hbb]
      · intro i hi hc0
        rw [ht1, cellAt_setCol_self]
        obtain ⟨b2, hb2, hout⟩ := condAssign_get?_true htr (maskOf_get?_true hi) hc0
        rw [cmpCell_none] at hb2
        have hbb : b2 = decide (op = CmpOp.ne) := (Option.some.inj hb2).symm
        rw [hout, hbb]
        by_cases hop : op = CmpOp.ne
        · rw [if_pos hop]
          simp [hop]
        · rw [if_neg hop]
          simp [hop]
      · intro i hi
        exact applyRule_frame hlv hcol hlen (by
          rw [applyRule_present_ok hlv hcol (hca.trans htr), ← ht1]) hi k
      · intro k0 hk0
        rw [ht1]
        exact getCol_setCol_ne df hk0 nc

/-- Concrete instantiation of the amended claim C1: rule `{default 0,
condition "> 0"}`; an in-scope null row is defaulted, an in-scope conforming
row keeps its value, the out-of-scope row and the `level_id` column are
untouched. -/
theorem C1_witness :
    (∀ i c0 b, ([some (.num 1), some (.num 1), some (.num 2)] : List Cell).get? i =
        some (some (.num 1)) →
      ([none, some (.num 100), some (.num (-5))] : List Cell).get? i = some c0 →
      cmpCell CmpOp.gt c0 (Lit.num 0) = some b →
      cellAt ⟨[("level_id", [some (.num 1), some (.num 1), some (.num 2)]),
        ("deductible1", [some (.num 0), some (.num 100), some (.num (-5))])]⟩
        "deductible1" i = some (if b then c0 else some (Lit.num 0))) ∧
    (∀ i, ([some (.num 1), some (.num 1), some (.num 2)] : List Cell).get? i =
        some (some (.num 1)) →
      ([none, some (.num 100), some (.num (-5))] : List Cell).get? i = some none →
      cellAt ⟨[("level_id", [some (.num 1), some (.num 1), some (.num 2)]),
        ("deductible1", [some (.num 0), some (.num 100), some (.num (-5))])]⟩
        "deductible1" i = some (if CmpOp.gt = CmpOp.ne then none else some (Lit.num 0))) ∧
    (∀ i, ([some (.num 1), some (.num 1), some (.num 2)] : List Cell).get? i ≠
        some (some (.num 1)) →
      cellAt ⟨[("level_id", [some (.num 1), some (.num 1), some (.num 2)]),
        ("deductible1", [some (.num 0), some (.num 100), some (.num (-5))])]⟩
        "deductible1" i =
      cellAt ⟨[("level_id", [some (.num 1), some (.num 1), some (.num 2)]),
        ("deductible1", [none, some (.num 100), some (.num (-5))])]⟩ "deductible1" i) ∧
    (∀ k0, k0 ≠ "deductible1" →
      getCol ⟨[("level_id", [some (.num 1), some (.num 1), some (.num 2)]),
        ("deductible1", [some (.num 0), some (.num 100), some (.num (-5))])]⟩ k0 =
      getCol ⟨[("level_id", [some (.num 1), some (.num 1), some (.num 2)]),
        ("deductible1", [none, some (.num 100), some (.num (-5))])]⟩ k0) :=
  C1_theorem 1 "deductible1" (Lit.num 0) "> 0" CmpOp.gt (Lit.num 0)
    ⟨[("level_id", [some (.num 1), some (.num 1), some (.num 2)]),
      ("deductible1", [none, some (.num 100), some (.num (-5))])]⟩
    [some (.num 1), some (.num 1), some (.num 2)]
    [none, some (.num 100), some (.num (-5))]
    ⟨[("level_id", [some (.num 1), some (.num 1), some (.num 2)]),
      ("deductible1", [some (.num 0), some (.num 100), some (.num (-5))])]⟩
    (by decide) (by decide) (by decide) (by decide) (by decide)

/-! ### Error propagation through the loops -/

theorem applyFields_cons_error {lid : Int} {k : String} {v : FieldRule}
    {rest : List (String × FieldRule)} {df : Table} {e : EngineError}
    (h : applyRule lid k v df = .error e) :
    applyFields lid ((k, v) :: rest) df = .error e := by
  simp only [applyFields, h]

theorem applyFields_cons_ok {lid : Int} {k : String} {v : FieldRule}
    {rest : List (String × FieldRule)} {df df1 : Table}
    (h : applyRule lid k v df = .ok df1) :
    applyFields lid ((k, v) :: rest) df = applyFields lid rest df1 := by
  simp only [applyFields, h]

theorem applyRule_malformed_errors {lid : Int} {k : String} {v : FieldRule}
    {df : Table} (ht : condTruthy v.condition = true)
    (hp : parseCondition (v.condition.getD "") = none) :
    ∃ e, applyRule lid k v df = .error e := by
  cases hlv : getCol df "level_id" with
  | none => exact ⟨_, applyRule_no_levelid hlv⟩
  | some lv =>
      cases hc : getCol df k with
      | none => exact ⟨_, applyRule_absent_cond hlv hc ht⟩
      | some col =>
          exact ⟨_, applyRule_present_error hlv hc (transformCol_malformed ht hp)⟩

theorem applyFields_error_of_mem {lid : Int} {k : String} {v : FieldRule} :
    ∀ {fields : List (String × FieldRule)} {df : Table}, (k, v) ∈ fields →
      (∀ t : Table, ∃ e, applyRule lid k v t = .error e) →
      ∃ e, applyFields lid fields df = .error e := by
  intro fields
  induction fields with
  | nil => intro df h _; cases h
  | cons kv rest ih =>
      intro df hmem herr
      obtain ⟨k1, v1⟩ := kv
      cases happ : applyRule lid k1 v1 df with
      | error e => exact ⟨e, applyFields_cons_error happ⟩
      | ok df1 =>
          cases hmem with
          | head =>
              obtain ⟨e, he⟩ := herr df
              rw [happ] at he
              cases he
          | tail _ hmem2 =>
              rw [applyFields_cons_ok happ]
              exact ih hmem2 herr

theorem assign_error_of_mem {levelIds : List (String × Int)} {level : String}
    {fields : List (String × FieldRule)} :
    ∀ {profile : List (String × List (String × FieldRule))} {df : Table},
      (level, fields) ∈ profile →
      (∀ t : Table, ∃ e, applyLevel levelIds level fields t = .error e) →
      ∃ e, assign_defaults_to_il_inputs levelIds profile df = .error e := by
  intro profile
  induction profile with
  | nil => intro df h _; cases h
  | cons q rest ih =>
      intro df hmem herr
      obtain ⟨L, fs⟩ := q
      cases happ : applyLevel levelIds L fs df with
      | error e => exact ⟨e, assign_cons_error happ⟩
      | ok df1 =>
          cases hmem with
          | head =>
              obtain ⟨e, he⟩ := herr df
              rw [happ] at he
              cases he
          | tail _ hmem2 =>
              rw [assign_cons_ok happ]
              exact ih hmem2 herr

/-- Claim C3.  A rule whose condition string is present, non-empty, and
unparseable as a comparison suffix makes the whole pass fail on every input
table: depending on the table state the error is the `SyntaxError` of the
dynamic evaluation, or an earlier `KeyError`/`AttributeError` raised before
the evaluation is reached, but the pass never completes successfully and the
rule is never silently skipped. -/
theorem C3_theorem (levelIds : List (String × Int))
    (profile : List (String × List (String × FieldRule))) (df : Table)
    (level : String) (fields : List (String × FieldRule)) (k : String)
    (v : FieldRule) (c : String)
    (hmem : (level, fields) ∈ profile) (hkv : (k, v) ∈ fields)
    (hcond : v.condition = some c) (hne : c ≠ "") (hpar : parseCondition c = none) :
    ∃ e, assign_defaults_to_il_inputs levelIds profile df = .error e := by
  apply assign_error_of_mem hmem
  intro t
  cases hl : levelIds.lookup level with
  | none => exact ⟨_, applyLevel_unknown hl⟩
  | some lid =>
      have ht : condTruthy v.condition = true := by
        rw [hcond]
        show (c != "") = true
        rw [bne_iff_ne]
        exact hne
      have hp : parseCondition (v.condition.getD "") = none := by
        rw [hcond]
        exact hpar
      obtain ⟨e, he⟩ :=
        applyFields_error_of_mem hkv (fun t2 => applyRule_malformed_errors ht hp)
      exact ⟨e, by rw [applyLevel_known hl]; exact he⟩

/-- Concrete instantiation of claim C3: the malformed condition `?? 5` (the
specification's own example) makes the pass fail on a one-row table in the
rule's scope. -/
theorem C3_witness :
    ∃ e, assign_defaults_to_il_inputs [("site coverage", 1)]
      [("site coverage", [("deductible1", ⟨Lit.num 9, some "?? 5"⟩)])]
      ⟨[("level_id", [some (.num 1)]), ("deductible1", [some (.num 3)])]⟩ =
      .error e :=
  C3_theorem [("site coverage", 1)]
    [("site coverage", [("deductible1", ⟨Lit.num 9, some "?? 5"⟩)])]
    ⟨[("level_id", [some (.num 1)]), ("deductible1", [some (.num 3)])]⟩
    "site coverage" [("deductible1", ⟨Lit.num 9, some "?? 5"⟩)]
    "deductible1" ⟨Lit.num 9, some "?? 5"⟩ "?? 5"
    (by decide) (by decide) (by decide) (by decide) (by decide)

/-- Claim C5.  A profile level with no entry in the level-id mapping makes the
pass fail on every input table (the `KeyError` of
`SUPPORTED_FM_LEVELS[level]`), and the failure is raised on reaching the
level, before any of that level's field rules is applied: the level iteration
errors identically whatever the field rules and the table state are. -/
theorem C5_theorem (levelIds : List (String × Int))
    (profile : List (String × List (String × FieldRule))) (df : Table)
    (level : String) (fields : List (String × FieldRule))
    (hmem : (level, fields) ∈ profile)
    (hunk : levelIds.lookup level = none) :
    (∃ e, assign_defaults_to_il_inputs levelIds profile df = .error e) ∧
    (∀ (fs2 : List (String × FieldRule)) (t : Table),
      applyLevel levelIds level fs2 t = .error (.unknownLevel level)) := by
  constructor
  · exact assign_error_of_mem hmem (fun t => ⟨_, applyLevel_unknown hunk⟩)
  · intro fs2 t
    exact applyLevel_unknown hunk

/-- Concrete instantiation of claim C5: level `condition` is absent from the
mapping, so the pass fails whatever rules the level carries. -/
theorem C5_witness :
    (∃ e, assign_defaults_to_il_inputs [("site coverage", 1)]
      [("cond all", [("limit1", ⟨Lit.num 4, none⟩)])]
      ⟨[("level_id", [some (.num 1)])]⟩ = .error e) ∧
    (∀ (fs2 : List (String × FieldRule)) (t : Table),
      applyLevel [("site coverage", 1)] "cond all" fs2 t =
        .error (.unknownLevel "cond all")) :=
  C5_theorem [("site coverage", 1)] [("cond all", [("limit1", ⟨Lit.num 4, none⟩)])]
    ⟨[("level_id", [some (.num 1)])]⟩ "cond all" [("limit1", ⟨Lit.num 4, none⟩)]
    (by decide) (by decide)

/-- Claim C4 is false as stated: a rule that carries a condition does not
treat a missing field column as defaultable — the `.loc` read of the absent
column raises a `KeyError` and the pass fails instead of succeeding with the
default assigned. -/
theorem C4_counterexample :
    assign_defaults_to_il_inputs [("policy", 2)]
      [("policy", [("X", ⟨Lit.num 0, some "> 0"⟩)])]
      ⟨[("level_id", [some (.num 2)])]⟩ = .error (.missingColumn "X") := by
  decide

/-- Claim C4, amended.  A missing field column is treated as entirely
defaultable only by a rule whose condition is absent (or falsy): the column is
created, rows in scope receive the default and all other rows null.  A rule
with a truthy condition fails on a missing column with a `KeyError` (as the
counterexample forces), whatever the scope. -/
theorem C4_theorem (lid : Int) (k : String) (v : FieldRule) (df : Table)
    (lv : List Cell) (hlv : getCol df "level_id" = some lv)
    (hc : getCol df k = none) :
    (condTruthy v.condition = false →
      ∃ df1, applyRule lid k v df = .ok df1 ∧
        (∀ i, lv.get? i = some (some (.num lid)) →
          cellAt df1 k i = some (some v.default_value)) ∧
        (∀ i c0, lv.get? i = some c0 → c0 ≠ some (.num lid) →
          cellAt df1 k i = some none)) ∧
    (condTruthy v.condition = true →
      applyRule lid k v df = .error (.missingColumn k)) := by
  constructor
  · intro ht
    refine ⟨_, applyRule_absent_uncond hlv hc ht, ?_, ?_⟩
    · intro i hi
      rw [cellAt_setCol_self, newColFor_get?, maskOf_get?_true hi]
      rfl
    · intro i c0 hi hne
      rw [cellAt_setCol_self, newColFor_get?, maskOf_get?_of_ne hi hne]
      rfl
  · intro ht
    exact applyRule_absent_cond hlv hc ht

/-- Concrete instantiation of the amended claim C4: an unconditional rule on a
missing column creates it, defaulting the in-scope row and leaving the other
row null. -/
theorem C4_witness :
    (condTruthy (FieldRule.mk (Lit.num 6) none).condition = false →
      ∃ df1, applyRule 2 "share1" ⟨Lit.num 6, none⟩
          ⟨[("level_id", [some (.num 2), some (.num 4)])]⟩ = .ok df1 ∧
        (∀ i, ([some (.num 2), some (.num 4)] : List Cell).get? i =
            some (some (.num 2)) →
          cellAt df1 "share1" i = some (some (Lit.num 6))) ∧
        (∀ i c0, ([some (.num 2), some (.num 4)] : List Cell).get? i = some c0 →
          c0 ≠ some (.num 2) → cellAt df1 "share1" i = some none)) ∧
    (condTruthy (FieldRule.mk (Lit.num 6) none).condition = true →
      applyRule 2 "share1" ⟨Lit.num 6, none⟩
        ⟨[("level_id", [some (.num 2), some (.num 4)])]⟩ =
        .error (.missingColumn "share1")) :=
  C4_theorem 2 "share1" ⟨Lit.num 6, none⟩
    ⟨[("level_id", [some (.num 2), some (.num 4)])]⟩
    [some (.num 2), some (.num 4)] (by decide) (by decide)

/-- Claim C8 is false as stated: a rule whose level matches zero rows is not
always a no-op.  When the rule is unconditional and its field column is
missing, the `.loc` assignment still creates the column, filling every row
with null — the table changes even though the scope is empty. -/
theorem C8_counterexample :
    assign_defaults_to_il_inputs [("account", 3)]
      [("account", [("limit2", ⟨Lit.num 5, none⟩)])]
      ⟨[("level_id", [some (.num 1)])]⟩ =
      .ok ⟨[("level_id", [some (.num 1)]), ("limit2", [none])]⟩ ∧
    (⟨[("level_id", [some (.num 1)]), ("limit2", [none])]⟩ : Table) ≠
      ⟨[("level_id", [some (.num 1)])]⟩ := by
  constructor
  · decide
  · decide

/-- Claim C8, amended.  A rule whose level id matches zero rows of the table
is a no-op — no error, table returned exactly as it was — provided the rule's
field column is present (the counterexample shows a missing column is still
created) and its condition, if truthy, parses (a malformed condition still
raises even on an empty scope).  No comparison is evaluated on the empty
scope, so no `TypeError` can arise. -/
theorem C8_theorem (lid : Int) (k : String) (v : FieldRule) (df : Table)
    (lv col : List Cell)
    (hlv : getCol df "level_id" = some lv)
    (hc : getCol df k = some col)
    (hlen : col.length ≤ lv.length)
    (hnd : (df.cols.map Prod.fst).Nodup)
    (hparse : condTruthy v.condition = true →
      (parseCondition (v.condition.getD "")).isSome = true)
    (hempty : ∀ i, i < lv.length → lv.get? i ≠ some (some (.num lid))) :
    applyRule lid k v df = .ok df := by
  have hmf : ∀ i, (maskOf lv lid).get? i ≠ some true := by
    intro i hm
    have hlvi := maskOf_true_iff.mp hm
    have hi : i < lv.length := by
      by_contra hh
      rw [List.get?_eq_none.mpr (Nat.le_of_not_lt hh)] at hlvi
      cases hlvi
    exact hempty i hi hlvi
  have hmask_len : col.length ≤ (maskOf lv lid).length := by
    rw [maskOf_length]
    exact hlen
  cases ht : condTruthy v.condition with
  | false =>
      have heq : uncondAssign (maskOf lv lid) col v.default_value = col :=
        uncondAssign_self _ _ _ hmask_len (fun i c hm _ => absurd hm (hmf i))
      have htr : transformCol (maskOf lv lid) col v = .ok col := by
        rw [transformCol_uncond ht, heq]
      rw [applyRule_present_ok hlv hc htr, setCol_self df hnd hc]
  | true =>
      obtain ⟨pr, hp⟩ := Option.isSome_iff_exists.mp (hparse ht)
      obtain ⟨op, l⟩ := pr
      have hca : condAssign (maskOf lv lid) col op l v.default_value = .ok col :=
        condAssign_ok_self _ _ hmask_len (fun i c hm _ => absurd hm (hmf i))
      have htr : transformCol (maskOf lv lid) col v = .ok col := by
        rw [transformCol_cond ht hp, hca]
      rw [applyRule_present_ok hlv hc htr, setCol_self df hnd hc]

/-- Concrete instantiation of the amended claim C8: a conditional rule for
level id 9 on a table whose only row has level id 1 returns the table
unchanged. -/
theorem C8_witness :
    applyRule 9 "deductible1" ⟨Lit.num 0, some "> 0"⟩
      ⟨[("level_id", [some (.num 1)]), ("deductible1", [some (.num 3)])]⟩ =
      .ok ⟨[("level_id", [some (.num 1)]), ("deductible1", [some (.num 3)])]⟩ :=
  C8_theorem 9 "deductible1" ⟨Lit.num 0, some "> 0"⟩
    ⟨[("level_id", [some (.num 1)]), ("deductible1", [some (.num 3)])]⟩
    [some (.num 1)] [some (.num 3)]
    (by decide) (by decide) (by decide) (by decide) (by decide) (by decide)

theorem rules_frame {lv : List Cell} :
    ∀ {rs : List (Int × String × FieldRule)} {t t' : Table},
      applyRules rs t = .ok t' →
      getCol t "level_id" = some lv →
      (∀ r ∈ rs, r.2.1 ≠ "level_id") →
      (∀ r ∈ rs, ∃ col, getCol t r.2.1 = some col ∧ col.length ≤ lv.length) →
      ∀ i k0, (∀ r ∈ rs, r.2.1 = k0 → lv.get? i ≠ some (some (.num r.1))) →
        cellAt t' k0 i = cellAt t k0 i := by
  intro rs
  induction rs with
  | nil =>
      intro t t' h _ _ _ i k0 _
      have heq : t = t' := Except.ok.inj h
      rw [heq]
  | cons r0 rest ih =>
      intro t t' h hlv hks hcols i k0 hprot
      cases h0 : applyRule r0.1 r0.2.1 r0.2.2 t with
      | error e => rw [applyRules_cons_error h0] at h; exact absurd h (by simp)
      | ok t0 =>
          rw [applyRules_cons_ok h0] at h
          obtain ⟨col0, hc0, hlen0⟩ := hcols r0 (by simp)
          have hstep : cellAt t0 k0 i = cellAt t k0 i := by
            by_cases hkk : k0 = r0.2.1
            · subst hkk
              exact applyRule_frame hlv hc0 hlen0 h0
                (hprot r0 (by simp) rfl) r0.2.1
            · obtain ⟨nc, ht0⟩ := applyRule_ok_shape h0
              rw [ht0, cellAt_setCol_ne t hkk nc i]
          have hlv0 : getCol t0 "level_id" = some lv := by
            rw [applyRule_ok_levelid (hks r0 (by simp)) h0, hlv]
          have hcols0 : ∀ r ∈ rest, ∃ col, getCol t0 r.2.1 = some col ∧
              col.length ≤ lv.length := by
            intro r hr
            obtain ⟨colr, hcr, hlenr⟩ := hcols r (List.mem_cons_of_mem _ hr)
            by_cases hkk : r.2.1 = r0.2.1
            · rw [hkk]
              cases htr0 : transformCol (maskOf lv r0.1) col0 r0.2.2 with
              | error e =>
                  rw [applyRule_present_error hlv hc0 htr0] at h0
                  exact absurd h0 (by simp)
              | ok nc0 =>
                  rw [applyRule_present_ok hlv hc0 htr0] at h0
                  have ht0 : t0 = setCol t r0.2.1 nc0 := (Except.ok.inj h0).symm
                  refine ⟨nc0, by rw [ht0]; exact getCol_setCol_self t r0.2.1 nc0, ?_⟩
                  have hl := transformCol_ok_length htr0
                  rw [maskOf_length] at hl
                  rw [hl]
                  exact Nat.min_le_left _ _
            · rw [applyRule_ok_other h0 hkk]
              exact ⟨colr, hcr, hlenr⟩
          have h1 := ih h hlv0
            (fun r hr => hks r (List.mem_cons_of_mem _ hr)) hcols0 i k0
            (fun r hr => hprot r (List.mem_cons_of_mem _ hr))
          rw [h1, hstep]

/-- Claim C7 is false as stated: a condition-less rule on a missing column
creates the column for the whole frame, so a row whose level appears nowhere
in the profile still gains a null cell in the new column — it is not
byte-for-byte unchanged. -/
theorem C7_counterexample :
    assign_defaults_to_il_inputs [("site coverage", 1)]
      [("site coverage", [("X", ⟨Lit.num 5, none⟩)])]
      ⟨[("level_id", [some (.num 2)])]⟩ =
      .ok ⟨[("level_id", [some (.num 2)]), ("X", [none])]⟩ ∧
    cellAt ⟨[("level_id", [some (.num 2)]), ("X", [none])]⟩ "X" 0 ≠
      cellAt ⟨[("level_id", [some (.num 2)])]⟩ "X" 0 := by
  constructor
  · decide
  · decide

/-- Claim C7, amended.  On a table that already contains every profile-rule
field column (the counterexample forces this proviso: a missing column is
created frame-wide) and with no rule targeting `level_id` itself, a
successful pass leaves untouched (a) every cell of every row whose `level_id`
matches no resolved profile level, and (b) every cell of a column that no
rule of the row's level names. -/
theorem C7_theorem (levelIds : List (String × Int))
    (profile : List (String × List (String × FieldRule))) (df t' : Table)
    (lv : List Cell)
    (hlv : getCol df "level_id" = some lv)
    (hcols : ∀ p ∈ profile, ∀ kv ∈ p.2, (getCol df kv.1).isSome = true ∧
      ((getCol df kv.1).getD []).length ≤ lv.length)
    (hlev : ∀ p ∈ profile, ∀ kv ∈ p.2, kv.1 ≠ "level_id")
    (h : assign_defaults_to_il_inputs levelIds profile df = .ok t') :
    (∀ i, (∀ p ∈ profile, ∀ lid, levelIds.lookup p.1 = some lid →
        lv.get? i ≠ some (some (.num lid))) →
      ∀ k0, cellAt t' k0 i = cellAt df k0 i) ∧
    (∀ i k0, (∀ p ∈ profile, ∀ lid, levelIds.lookup p.1 = some lid →
        lv.get? i = some (some (.num lid)) → ∀ kv ∈ p.2, kv.1 ≠ k0) →
      cellAt t' k0 i = cellAt df k0 i) := by
  have hres := engine_ok_resolves h
  rw [engine_eq_flat hres] at h
  have hmain : ∀ i k0, (∀ r ∈ flatRules levelIds profile, r.2.1 = k0 →
      lv.get? i ≠ some (some (.num r.1))) → cellAt t' k0 i = cellAt df k0 i := by
    intro i k0 hprot
    apply rules_frame h hlv ?_ ?_ i k0 hprot
    · intro r hr
      obtain ⟨p, hp, kv, hkv, he⟩ := mem_flatRules hr
      rw [he]
      exact hlev p hp kv hkv
    · intro r hr
      obtain ⟨p, hp, kv, hkv, he⟩ := mem_flatRules hr
      obtain ⟨hsome, hglen⟩ := hcols p hp kv hkv
      obtain ⟨colr, hcr⟩ := Option.isSome_iff_exists.mp hsome
      rw [he]
      refine ⟨colr, hcr, ?_⟩
      rw [hcr] at hglen
      simpa using hglen
  constructor
  · intro i hno k0
    apply hmain
    intro r hr _
    obtain ⟨p, hp, kv, hkv, he⟩ := mem_flatRules hr
    obtain ⟨lidp, hlp⟩ := Option.isSome_iff_exists.mp (hres p hp)
    have hr1 : r.1 = lidp := by rw [he, hlp]; rfl
    rw [hr1]
    exact hno p hp lidp hlp
  · intro i k0 hsel
    apply hmain
    intro r hr hrk hscope
    obtain ⟨p, hp, kv, hkv, he⟩ := mem_flatRules hr
    obtain ⟨lidp, hlp⟩ := Option.isSome_iff_exists.mp (hres p hp)
    have hr1 : r.1 = lidp := by rw [he, hlp]; rfl
    rw [hr1] at hscope
    have hkv1 : kv.1 = k0 := by rw [he] at hrk; exact hrk
    exact absurd hkv1 (hsel p hp lidp hlp hscope kv hkv)

/-- Concrete instantiation of the amended claim C7: the out-of-profile row and
the un-named column are untouched by the pass. -/
theorem C7_witness :
    (∀ i, (∀ p ∈ [("site coverage",
          [("deductible1", (⟨Lit.num 0, some "> 0"⟩ : FieldRule))])],
        ∀ lid, ([("site coverage", 1)] : List (String × Int)).lookup p.1 = some lid →
        ([some (.num 1), some (.num 2)] : List Cell).get? i ≠
          some (some (.num lid))) →
      ∀ k0, cellAt ⟨[("level_id", [some (.num 1), some (.num 2)]),
          ("deductible1", [some (.num 0), some (.num 3)]),
          ("other", [some (.num 8), some (.num 9)])]⟩ k0 i =
        cellAt ⟨[("level_id", [some (.num 1), some (.num 2)]),
          ("deductible1", [none, some (.num 3)]),
          ("other", [some (.num 8), some (.num 9)])]⟩ k0 i) ∧
    (∀ i k0, (∀ p ∈ [("site coverage",
          [("deductible1", (⟨Lit.num 0, some "> 0"⟩ : FieldRule))])],
        ∀ lid, ([("site coverage", 1)] : List (String × Int)).lookup p.1 = some lid →
        ([some (.num 1), some (.num 2)] : List Cell).get? i =
          some (some (.num lid)) → ∀ kv ∈ p.2, kv.1 ≠ k0) →
      cellAt ⟨[("level_id", [some (.num 1), some (.num 2)]),
          ("deductible1", [some (.num 0), some (.num 3)]),
          ("other", [some (.num 8), some (.num 9)])]⟩ k0 i =
        cellAt ⟨[("level_id", [some (.num 1), some (.num 2)]),
          ("deductible1", [none, some (.num 3)]),
          ("other", [some (.num 8), some (.num 9)])]⟩ k0 i) :=
  C7_theorem [("site coverage", 1)]
    [("site coverage", [("deductible1", ⟨Lit.num 0, some "> 0"⟩)])]
    ⟨[("level_id", [some (.num 1), some (.num 2)]),
      ("deductible1", [none, some (.num 3)]),
      ("other", [some (.num 8), some (.num 9)])]⟩
    ⟨[("level_id", [some (.num 1), some (.num 2)]),
      ("deductible1", [some (.num 0), some (.num 3)]),
      ("other", [some (.num 8), some (.num 9)])]⟩
    [some (.num 1), some (.num 2)]
    (by decide) (by decide) (by decide) (by decide)

/-- Claim C9 is false as stated: two rules of two distinct profile levels
(`L1` and `L2`) may resolve to the same level id via the level-id mapping, in
which case they target the same rows of the same field: the modified row sets
coincide rather than being disjoint, and the two application orders produce
different tables. -/
theorem C9_counterexample :
    applyRule 1 "X" ⟨Lit.num 5, none⟩
      ⟨[("level_id", [some (.num 1)]), ("X", [some (.num 3)])]⟩ =
      .ok ⟨[("level_id", [some (.num 1)]), ("X", [some (.num 5)])]⟩ ∧
    applyRule 1 "X" ⟨Lit.num 6, none⟩
      ⟨[("level_id", [some (.num 1)]), ("X", [some (.num 3)])]⟩ =
      .ok ⟨[("level_id", [some (.num 1)]), ("X", [some (.num 6)])]⟩ ∧
    cellAt ⟨[("level_id", [some (.num 1)]), ("X", [some (.num 5)])]⟩ "X" 0 ≠
      cellAt ⟨[("level_id", [some (.num 1)]), ("X", [some (.num 3)])]⟩ "X" 0 ∧
    cellAt ⟨[("level_id", [some (.num 1)]), ("X", [some (.num 6)])]⟩ "X" 0 ≠
      cellAt ⟨[("level_id", [some (.num 1)]), ("X", [some (.num 3)])]⟩ "X" 0 ∧
    applyRule 1 "X" ⟨Lit.num 6, none⟩
        ⟨[("level_id", [some (.num 1)]), ("X", [some (.num 5)])]⟩ ≠
      applyRule 1 "X" ⟨Lit.num 5, none⟩
        ⟨[("level_id", [some (.num 1)]), ("X", [some (.num 6)])]⟩ := by
  refine ⟨by decide, by decide, by decide, by decide, by decide⟩

/-- Claim C9, amended.  Two rules of two distinct levels whose levels resolve
to distinct level ids (as the counterexample forces), neither rule targeting
the `level_id` column, both field columns present: their scopes are disjoint,
each rule changes only rows of its own scope, and when both rules apply
successfully to the table they commute — applying them in either order
reaches the same table. -/
theorem C9_theorem (lid lid2 : Int) (k k2 : String) (v v2 : FieldRule)
    (t t1 t2 : Table) (lv col col2 : List Cell)
    (hll : lid ≠ lid2) (hk : k ≠ "level_id") (hk2 : k2 ≠ "level_id")
    (hlv : getCol t "level_id" = some lv)
    (hc : getCol t k = some col) (hc2 : getCol t k2 = some col2)
    (hlen : col.length ≤ lv.length) (hlen2 : col2.length ≤ lv.length)
    (h1 : applyRule lid k v t = .ok t1) (h2 : applyRule lid2 k2 v2 t = .ok t2) :
    (∀ i, ¬ (lv.get? i = some (some (.num lid)) ∧
      lv.get? i = some (some (.num lid2)))) ∧
    (∀ i k0, lv.get? i ≠ some (some (.num lid)) → cellAt t1 k0 i = cellAt t k0 i) ∧
    (∀ i k0, lv.get? i ≠ some (some (.num lid2)) → cellAt t2 k0 i = cellAt t k0 i) ∧
    (∃ u, applyRule lid2 k2 v2 t1 = .ok u ∧ applyRule lid k v t2 = .ok u) := by
  cases htr1 : transformCol (maskOf lv lid) col v with
  | error e => rw [applyRule_present_error hlv hc htr1] at h1; exact absurd h1 (by simp)
  | ok nc1 =>
  cases htr2 : transformCol (maskOf lv lid2) col2 v2 with
  | error e => rw [applyRule_present_error hlv hc2 htr2] at h2; exact absurd h2 (by simp)
  | ok nc2 =>
  have h1' := h1
  rw [applyRule_present_ok hlv hc htr1] at h1'
  have ht1 : t1 = setCol t k nc1 := (Except.ok.inj h1').symm
  have h2' := h2
  rw [applyRule_present_ok hlv hc2 htr2] at h2'
  have ht2 : t2 = setCol t k2 nc2 := (Except.ok.inj h2').symm
  have hlv1 : getCol t1 "level_id" = some lv := by
    rw [ht1, getCol_setCol_ne t (Ne.symm hk) nc1, hlv]
  have hlv2 : getCol t2 "level_id" = some lv := by
    rw [ht2, getCol_setCol_ne t (Ne.symm hk2) nc2, hlv]
  refine ⟨?_, ?_, ?_, ?_⟩
  · intro i hpair
    obtain ⟨ha, hb⟩ := hpair
    rw [ha] at hb
    have hsome := Option.some.inj hb
    have hsome2 := Option.some.inj hsome
    exact hll (Lit.num.inj hsome2)
  · intro i k0 hi
    exact applyRule_frame hlv hc hlen h1 hi k0
  · intro i k0 hi
    exact applyRule_frame hlv hc2 hlen2 h2 hi k0
  · by_cases hkk : k2 = k
    · subst hkk
      have hcol22 : col2 = col := by
        rw [hc] at hc2
        exact (Option.some.inj hc2).symm
      subst hcol22
      have hc1get : getCol t1 k2 = some nc1 := by
        rw [ht1]; exact getCol_setCol_self t k2 nc1
      have hc2get : getCol t2 k2 = some nc2 := by
        rw [ht2]; exact getCol_setCol_self t k2 nc2
      have agree21 : ∀ i, (maskOf lv lid2).get? i = some true →
          nc1.get? i = col2.get? i := fun i hm =>
        transformCol_get?_false htr1 (maskOf_disjoint (Ne.symm hll) hm)
      have agree12 : ∀ i, (maskOf lv lid).get? i = some true →
          nc2.get? i = col2.get? i := fun i hm =>
        transformCol_get?_false htr2 (maskOf_disjoint hll hm)
      obtain ⟨nc21, htr21⟩ := transformCol_ok_of_agree htr2 agree21
      obtain ⟨nc12, htr12⟩ := transformCol_ok_of_agree htr1 agree12
      have hnc : nc21 = nc12 := by
        apply List.ext_get?
        intro i
        cases hm1 : (maskOf lv lid).get? i with
        | none =>
            have hm2 : (maskOf lv lid2).get? i = none := by
              apply List.get?_eq_none.mpr
              rw [maskOf_length]
              have hle := List.get?_eq_none.mp hm1
              rw [maskOf_length] at hle
              exact hle
            rw [transformCol_get?_none_mask htr21 hm2,
              transformCol_get?_none_mask htr12 hm1]
        | some b1 =>
            obtain ⟨b2, hm2⟩ : ∃ b2, (maskOf lv lid2).get? i = some b2 := by
              cases hm2 : (maskOf lv lid2).get? i with
              | none =>
                  have hile := List.get?_eq_none.mp hm2
                  rw [maskOf_length] at hile
                  have hnone : (maskOf lv lid).get? i = none := by
                    apply List.get?_eq_none.mpr
                    rw [maskOf_length]
                    exact hile
                  rw [hnone] at hm1
                  cases hm1
              | some b2 => exact ⟨b2, rfl⟩
            cases b1 with
            | true =>
                have hm2f : (maskOf lv lid2).get? i = some false :=
                  maskOf_disjoint hll hm1
                cases hci : col2.get? i with
                | none =>
                    have hn1 : nc1.get? i = none := transformCol_get?_none htr1 hci
                    have hn2 : nc2.get? i = none := transformCol_get?_none htr2 hci
                    rw [transformCol_get?_none htr21 hn1,
                      transformCol_get?_none htr12 hn2]
                | some c =>
                    have e21 : nc21.get? i = nc1.get? i :=
                      transformCol_get?_false htr21 hm2f
                    have e1 : nc1.get? i = some (ruleCellSem v c) :=
                      transformCol_get?_true_sem htr1 hm1 hci
                    have e2keep : nc2.get? i = some c := by
                      rw [transformCol_get?_false htr2 hm2f, hci]
                    have e12 : nc12.get? i = some (ruleCellSem v c) :=
                      transformCol_get?_true_sem htr12 hm1 e2keep
                    rw [e21, e1, e12]
            | false =>
                cases b2 with
                | true =>
                    cases hci : col2.get? i with
                    | none =>
                        have hn1 : nc1.get? i = none := transformCol_get?_none htr1 hci
                        have hn2 : nc2.get? i = none := transformCol_get?_none htr2 hci
                        rw [transformCol_get?_none htr21 hn1,
                          transformCol_get?_none htr12 hn2]
                    | some c =>
                        have e1keep : nc1.get? i = some c := by
                          rw [transformCol_get?_false htr1 hm1, hci]
                        have e21 : nc21.get? i = some (ruleCellSem v2 c) :=
                          transformCol_get?_true_sem htr21 hm2 e1keep
                        have e2 : nc2.get? i = some (ruleCellSem v2 c) :=
                          transformCol_get?_true_sem htr2 hm2 hci
                        have e12 : nc12.get? i = nc2.get? i :=
                          transformCol_get?_false htr12 hm1
                        rw [e21, e12, e2]
                | false =>
                    have e21 : nc21.get? i = nc1.get? i :=
                      transformCol_get?_false htr21 hm2
                    have e1 : nc1.get? i = col2.get? i :=
                      transformCol_get?_false htr1 hm1
                    have e12 : nc12.get? i = nc2.get? i :=
                      transformCol_get?_false htr12 hm1
                    have e2 : nc2.get? i = col2.get? i :=
                      transformCol_get?_false htr2 hm2
                    rw [e21, e1, e12, e2]
      refine ⟨setCol t k2 nc21, ?_, ?_⟩
      · rw [applyRule_present_ok hlv1 hc1get htr21, ht1, setCol_setCol]
      · rw [applyRule_present_ok hlv2 hc2get htr12, ht2, setCol_setCol, hnc]
    · have hc2in1 : getCol t1 k2 = some col2 := by
        rw [ht1, getCol_setCol_ne t hkk nc1, hc2]
      have hcin2 : getCol t2 k = some col := by
        rw [ht2, getCol_setCol_ne t (fun hh => hkk hh.symm) nc2, hc]
      refine ⟨setCol t1 k2 nc2, ?_, ?_⟩
      · rw [applyRule_present_ok hlv1 hc2in1 htr2]
      · rw [applyRule_present_ok hlv2 hcin2 htr1]
        rw [ht1, ht2]
        exact congrArg Except.ok
          (setCol_comm t (fun hh => hkk hh.symm) (by rw [hc]; rfl) nc1 nc2).symm

/-- Concrete instantiation of the amended claim C9: an unconditional rule for
level id 1 on `deductible1` and a conditional rule for level id 2 on the same
field have disjoint scopes and commute. -/
theorem C9_witness :
    (∀ i, ¬ (([some (.num 1), some (.num 2)] : List Cell).get? i =
        some (some (.num 1)) ∧
      ([some (.num 1), some (.num 2)] : List Cell).get? i =
        some (some (.num 2)))) ∧
    (∀ i k0, ([some (.num 1), some (.num 2)] : List Cell).get? i ≠
        some (some (.num 1)) →
      cellAt ⟨[("level_id", [some (.num 1), some (.num 2)]),
        ("deductible1", [some (.num 5), some (.num (-4))])]⟩ k0 i =
      cellAt ⟨[("level_id", [some (.num 1), some (.num 2)]),
        ("deductible1", [none, some (.num (-4))])]⟩ k0 i) ∧
    (∀ i k0, ([some (.num 1), some (.num 2)] : List Cell).get? i ≠
        some (some (.num 2)) →
      cellAt ⟨[("level_id", [some (.num 1), some (.num 2)]),
        ("deductible1", [none, some (.num 0)])]⟩ k0 i =
      cellAt ⟨[("level_id", [some (.num 1), some (.num 2)]),
        ("deductible1", [none, some (.num (-4))])]⟩ k0 i) ∧
    (∃ u, applyRule 2 "deductible1" ⟨Lit.num 0, some "> 0"⟩
        ⟨[("level_id", [some (.num 1), some (.num 2)]),
          ("deductible1", [some (.num 5), some (.num (-4))])]⟩ = .ok u ∧
      applyRule 1 "deductible1" ⟨Lit.num 5, none⟩
        ⟨[("level_id", [some (.num 1), some (.num 2)]),
          ("deductible1", [none, some (.num 0)])]⟩ = .ok u) :=
  C9_theorem 1 2 "deductible1" "deductible1" ⟨Lit.num 5, none⟩
    ⟨Lit.num 0, some "> 0"⟩
    ⟨[("level_id", [some (.num 1), some (.num 2)]),
      ("deductible1", [none, some (.num (-4))])]⟩
    ⟨[("level_id", [some (.num 1), some (.num 2)]),
      ("deductible1", [some (.num 5), some (.num (-4))])]⟩
    ⟨[("level_id", [some (.num 1), some (.num 2)]),
      ("deductible1", [none, some (.num 0)])]⟩
    [some (.num 1), some (.num 2)]
    [none, some (.num (-4))] [none, some (.num (-4))]
    (by decide) (by decide) (by decide) (by decide) (by decide) (by decide)
    (by decide) (by decide) (by decide) (by decide)

end OasisDefaults
